import Mathlib

/-!
# Cocomp: the byte-code machine of `cocomp.c` and `cocomp2.c`

A shallow embedding of the two C sources and theorems about it.

Modelling conventions.

* The C struct `Cocomp` becomes the record `Cocomp`. Arrays are functions from an `Int` index;
  an access whose index lies outside the array is undefined behaviour in C and is not modelled:
  the operation returns `none`. The fields `heap`, `page_directory`, the identity counters, the
  thread table and the neural-network arrays are left out: no function embedded here reads or
  writes them.
* A `double` is its 64-bit IEEE-754 pattern (`Double`); `*(double*)&memory[a]` reads or writes the
  eight bytes at `a .. a+7`, least significant byte first (the x86-64 host order). An `int` is an
  `Int`; where a C computation can leave the 32-bit range it is wrapped by `wrap32`
  (two's complement).
* `printf` is modelled by appending a `Msg` to the field `stdout`.
* The macros that differ between the two files are collected in `Sizes`; `cocomp_c` and
  `cocomp2_c` are the values of the two files. A function whose text is the same in both files
  (`push_stack`, `pop_stack`, ...) is embedded once, with the sizes as a parameter.
* `execute_program` is a `while` loop that need not terminate; it is embedded with a bound on the
  number of loop iterations (`fuel`), and `Run.unfinished` reports that the bound was reached.
-/

namespace CocompVM

/-! ## Data model -/

/-- An `unsigned char`. -/
abbrev Byte := Fin 256

/-- A C `double`, represented by its IEEE-754 binary64 bit pattern. -/
abbrev Double := Fin (2 ^ 64)

/-- The double with the given bit pattern (reduced to 64 bits). -/
def f64 (bits : Nat) : Double := ⟨bits % 2 ^ 64, Nat.mod_lt _ (by decide)⟩

/-- The macros of the two source files. -/
structure Sizes where
  MEMORY_SIZE : Int
  STACK_SIZE : Int
  HEAP_SIZE : Int
  PAGE_SIZE : Int
  MAX_PROCESSES : Int
  DYNAMIC_CODE_SIZE : Int

/-- The macros of `cocomp.c` (`sizeof dynamic_code_area` is `MEMORY_SIZE` there). -/
def cocomp_c : Sizes :=
  { MEMORY_SIZE := 1024, STACK_SIZE := 256, HEAP_SIZE := 256, PAGE_SIZE := 64,
    MAX_PROCESSES := 10, DYNAMIC_CODE_SIZE := 1024 }

/-- The macros of `cocomp2.c` (`inter_process_comm[10]`, `dynamic_code_area[1024]`). -/
def cocomp2_c : Sizes :=
  { MEMORY_SIZE := 4096, STACK_SIZE := 512, HEAP_SIZE := 1024, PAGE_SIZE := 256,
    MAX_PROCESSES := 10, DYNAMIC_CODE_SIZE := 1024 }

/-- `INVALID_PAGE`. -/
def INVALID_PAGE : Byte := 0xFF

/-- One line written by a `printf` of the sources, with the values it prints. -/
inductive Msg where
  | stack_overflow
  | stack_underflow
  | io_interrupt (accumulator : Double)
  | unknown_interrupt (code : Int)
  | allocated (size start : Int)
  | heap_allocation_failed
  | freed (size address : Int)
  | invalid_heap_address
  | page_fault (address : Int)
  | invalid_memory_address (address : Int)
  | unknown_instruction (instruction : Byte) (address : Int)
  | program_too_large
  | invalid_process_id
  | ipc_sent (process_id message : Int)
  | ipc_received (process_id message : Int)
  | dynamic_code_too_large
  | dynamic_code_loaded
  | neural_network_initialized
  deriving DecidableEq

/-- The machine state: the fields of the C struct `Cocomp` that the embedded functions use
(`free_blocks` exists in `cocomp.c` only), and the text printed so far. -/
structure Cocomp where
  memory : Int → Byte
  page_table : Int → Byte
  instruction_pointer : Int
  accumulator : Double
  stack_pointer : Int
  heap_pointer : Int
  inter_process_comm : Int → Int
  dynamic_code_area : Int → Byte
  free_blocks : Int → Int
  stdout : List Msg

/-- Append one printed line. -/
def print (c : Cocomp) (m : Msg) : Cocomp := { c with stdout := c.stdout ++ [m] }

/-! ## Machine integers and raw memory access -/

/-- `INT_MIN` of a 32-bit `int`. -/
def INT_MIN : Int := -2147483648

/-- Reduce an integer to the 32-bit two's-complement range. -/
def wrap32 (x : Int) : Int := (x + 2147483648) % 4294967296 - 2147483648

/-- Byte `k` of the little-endian representation of `x`. -/
def byte_of (x : Nat) (k : Nat) : Byte := ⟨x / 256 ^ k % 256, Nat.mod_lt _ (by decide)⟩

/-- The number whose little-endian bytes are the list. -/
def le_value : List Byte → Nat
  | [] => 0
  | b :: bs => b.val + 256 * le_value bs

/-- The eight bytes of the object representation of a `double`. -/
def double_bytes (d : Double) : List Byte :=
  [byte_of d.val 0, byte_of d.val 1, byte_of d.val 2, byte_of d.val 3,
   byte_of d.val 4, byte_of d.val 5, byte_of d.val 6, byte_of d.val 7]

/-- The bytes `m[a], ..., m[a+7]`. -/
def bytes8 (m : Int → Byte) (a : Int) : List Byte :=
  [m a, m (a + 1), m (a + 2), m (a + 3), m (a + 4), m (a + 5), m (a + 6), m (a + 7)]

/-- The value `*(double*)&m[a]`. -/
def read_double (m : Int → Byte) (a : Int) : Double := f64 (le_value (bytes8 m a))

/-- The array after `*(double*)&m[a] = d`. -/
def write_double (m : Int → Byte) (a : Int) (d : Double) : Int → Byte :=
  fun i => if a ≤ i ∧ i < a + 8 then byte_of d.val (i - a).toNat else m i

/-- The value `*(int*)&m[a]`: four bytes, two's complement. -/
def read_int (m : Int → Byte) (a : Int) : Int :=
  wrap32 (le_value [m a, m (a + 1), m (a + 2), m (a + 3)] : Nat)

/-- `memory[i]`; `none` when `i` is outside the array. -/
def load_byte (z : Sizes) (c : Cocomp) (i : Int) : Option Byte :=
  if 0 ≤ i ∧ i < z.MEMORY_SIZE then some (c.memory i) else none

/-- `*(double*)&memory[a]`; `none` when one of the eight bytes is outside the array. -/
def load_double (z : Sizes) (c : Cocomp) (a : Int) : Option Double :=
  if 0 ≤ a ∧ a + 8 ≤ z.MEMORY_SIZE then some (read_double c.memory a) else none

/-- `*(int*)&memory[a]`; `none` when one of the four bytes is outside the array. -/
def load_int (z : Sizes) (c : Cocomp) (a : Int) : Option Int :=
  if 0 ≤ a ∧ a + 4 ≤ z.MEMORY_SIZE then some (read_int c.memory a) else none

/-- `*(double*)&memory[a] = d`; `none` when one of the eight bytes is outside the array. -/
def store_double (z : Sizes) (c : Cocomp) (a : Int) (d : Double) : Option Cocomp :=
  if 0 ≤ a ∧ a + 8 ≤ z.MEMORY_SIZE then some { c with memory := write_double c.memory a d }
  else none

/-- The loop `for (j = lo; j < hi; j++) a[j] = v`. -/
def set_range (a : Int → Int) (lo hi v : Int) : Int → Int :=
  fun j => if lo ≤ j ∧ j < hi then v else a j

/-! ## Double arithmetic (IEEE-754 binary64, round to nearest even, as on x86-64 SSE2) -/

/-- Index of the highest set bit of `n` (`0` for `n = 0`), for `n < 2^4096`. -/
def ilog2 (n : Nat) : Nat :=
  let s (k : Nat) (p : Nat × Nat) : Nat × Nat :=
    if p.2 >>> k ≠ 0 then (p.1 + k, p.2 >>> k) else p
  (s 1 (s 2 (s 4 (s 8 (s 16 (s 32 (s 64 (s 128 (s 256 (s 512 (s 1024 (s 2048 (0, n))))))))))))).1

def f64_sign (d : Double) : Nat := d.val >>> 63

def f64_exp (d : Double) : Nat := (d.val >>> 52) % 2048

def f64_frac (d : Double) : Nat := d.val % 2 ^ 52

def f64_is_nan (d : Double) : Bool := f64_exp d = 2047 ∧ f64_frac d ≠ 0

def f64_is_inf (d : Double) : Bool := f64_exp d = 2047 ∧ f64_frac d = 0

/-- The quiet form of a NaN. -/
def f64_quiet (d : Double) : Double := f64 (d.val ||| 2 ^ 51)

/-- The NaN an invalid SSE2 operation produces. -/
def f64_default_nan : Double := f64 0xFFF8000000000000

def f64_neg (d : Double) : Double := f64 (d.val ^^^ 2 ^ 63)

/-- Magnitude of a finite double as a multiple of `2^-1074`. -/
def f64_mag (d : Double) : Nat :=
  if f64_exp d = 0 then f64_frac d else (2 ^ 52 + f64_frac d) <<< (f64_exp d - 1)

/-- Value of a finite double as a signed multiple of `2^-1074`. -/
def f64_units (d : Double) : Int :=
  if f64_sign d = 1 then - (f64_mag d : Int) else (f64_mag d : Int)

/-- Round the positive multiple `m` of `2^-1074` to the nearest double, ties to even; the result
is the bit pattern without its sign bit (infinity on overflow). -/
def f64_round_mag (m : Nat) : Nat :=
  if m < 2 ^ 53 then m
  else
    let shift := ilog2 m - 52
    let q := m >>> shift
    let r := m % (1 <<< shift)
    let half := 1 <<< (shift - 1)
    let q' := if r > half ∨ (r = half ∧ q % 2 = 1) then q + 1 else q
    let bits := (shift <<< 52) + q'
    if bits ≥ 0x7FF0000000000000 then 0x7FF0000000000000 else bits

/-- The C expression `a + b` on doubles. -/
def f64_add (a b : Double) : Double :=
  if f64_is_nan a then f64_quiet a
  else if f64_is_nan b then f64_quiet b
  else if f64_is_inf a then
    if f64_is_inf b ∧ f64_sign a ≠ f64_sign b then f64_default_nan else a
  else if f64_is_inf b then b
  else
    let s := f64_units a + f64_units b
    if s = 0 then
      if f64_sign a = 1 ∧ f64_sign b = 1 then f64 (2 ^ 63) else f64 0
    else if s < 0 then f64 (2 ^ 63 + f64_round_mag s.natAbs)
    else f64 (f64_round_mag s.natAbs)

/-- The C expression `a - b` on doubles. -/
def f64_sub (a b : Double) : Double :=
  if f64_is_nan a then f64_quiet a
  else if f64_is_nan b then f64_quiet b
  else f64_add a (f64_neg b)

/-- The conversion `(double)n` of an `int` (exact). -/
def f64_of_int (n : Int) : Double :=
  if n = 0 then f64 0
  else
    let m := n.natAbs
    let l := ilog2 m
    let bits := ((1023 + l) <<< 52) + ((m <<< (52 - l)) - 2 ^ 52)
    if n < 0 then f64 (2 ^ 63 + bits) else f64 bits

/-- The conversion `(int)d`: truncation toward zero; a NaN or a value outside the `int` range
gives `INT_MIN`, the result of the x86-64 conversion instruction (the C standard leaves these
cases undefined). -/
def f64_to_int (d : Double) : Int :=
  if f64_exp d = 2047 then INT_MIN
  else if f64_exp d < 1023 then 0
  else if f64_exp d > 1023 + 31 then INT_MIN
  else
    let u : Nat := (2 ^ 52 + f64_frac d) >>> (1075 - f64_exp d)
    let v : Int := if f64_sign d = 1 then - (u : Int) else (u : Int)
    if INT_MIN ≤ v ∧ v < 2147483648 then v else INT_MIN

/-- The 32-bit pattern of an `int`. -/
def to_u32 (x : Int) : Nat := (x % 4294967296).toNat

/-- `x & y` on `int`. -/
def int_and (x y : Int) : Int := wrap32 ((to_u32 x &&& to_u32 y : Nat) : Int)

/-- `x | y` on `int`. -/
def int_or (x y : Int) : Int := wrap32 ((to_u32 x ||| to_u32 y : Nat) : Int)

/-- `x ^ y` on `int`. -/
def int_xor (x y : Int) : Int := wrap32 ((to_u32 x ^^^ to_u32 y : Nat) : Int)

/-- `x << y` on `int`, as the x86-64 shift computes it: the count is taken modulo 32 and the
result wraps (the C standard leaves the other cases undefined). -/
def int_shl (x y : Int) : Int := wrap32 (x * 2 ^ (to_u32 y % 32))

/-- `x >> y` on `int`: arithmetic shift, count modulo 32. -/
def int_shr (x y : Int) : Int := x / 2 ^ (to_u32 y % 32)

/-! ## The stack (`push_stack`, `pop_stack`: the same text in both files) -/

/-- `push_stack`: refuses when the stack pointer is at or below `MEMORY_SIZE - STACK_SIZE`;
otherwise decrements the stack pointer by one and writes the eight bytes of `value` there. -/
def push_stack (z : Sizes) (c : Cocomp) (value : Double) : Option Cocomp :=
  if c.stack_pointer ≤ z.MEMORY_SIZE - z.STACK_SIZE then
    some (print c Msg.stack_overflow)
  else
    store_double z { c with stack_pointer := c.stack_pointer - 1 } (c.stack_pointer - 1) value

/-- `pop_stack`: returns `0` when the stack pointer is at or above `MEMORY_SIZE`; otherwise reads
eight bytes at the stack pointer and increments it by one. -/
def pop_stack (z : Sizes) (c : Cocomp) : Option (Double × Cocomp) :=
  if c.stack_pointer ≥ z.MEMORY_SIZE then
    some (f64 0, print c Msg.stack_underflow)
  else
    match load_double z c c.stack_pointer with
    | none => none
    | some v => some (v, { c with stack_pointer := c.stack_pointer + 1 })

/-- `handle_interrupt` (the same text in both files). -/
def handle_interrupt (c : Cocomp) (interrupt_code : Int) : Cocomp :=
  if interrupt_code = 0x01 then print c (Msg.io_interrupt c.accumulator)
  else print c (Msg.unknown_interrupt interrupt_code)

/-! ## `cocomp.c` -/

/-- `initialize_cocomp`: every modelled field is overwritten; `memset(free_blocks, 1, ...)` sets
each byte of each `int` to 1, so each entry becomes `0x01010101`. -/
def initialize_cocomp (c : Cocomp) : Cocomp :=
  { memory := fun _ => 0
    page_table := fun _ => INVALID_PAGE
    instruction_pointer := 0
    accumulator := f64 0
    stack_pointer := cocomp_c.MEMORY_SIZE - cocomp_c.STACK_SIZE
    heap_pointer := 0
    inter_process_comm := fun _ => 0
    dynamic_code_area := fun _ => 0
    free_blocks := fun _ => 0x01010101
    stdout := c.stdout }

/-- The `for` loop of `allocate_heap` in `cocomp.c`, with `n` iterations left, at index `i`, with
the current values of the locals `start_block` and `consecutive_free_blocks`. -/
def allocate_heap_loop (size : Int) : Nat → Int → Int → Int → Cocomp → Cocomp
  | 0, _, _, _, c => print c Msg.heap_allocation_failed
  | n + 1, i, start_block, consecutive_free_blocks, c =>
    if c.free_blocks i ≠ 0 then
      let start_block := if start_block = -1 then i else start_block
      let consecutive_free_blocks := consecutive_free_blocks + 1
      if consecutive_free_blocks = size then
        print
          { c with
            free_blocks := set_range c.free_blocks start_block (start_block + size) 0
            heap_pointer := start_block }
          (Msg.allocated size start_block)
      else allocate_heap_loop size n (i + 1) start_block consecutive_free_blocks c
    else allocate_heap_loop size n (i + 1) (-1) 0 c

/-- `allocate_heap` of `cocomp.c`. -/
def allocate_heap (z : Sizes) (c : Cocomp) (size : Int) : Cocomp :=
  allocate_heap_loop size z.HEAP_SIZE.toNat 0 (-1) 0 c

/-- `free_heap` of `cocomp.c`; the sum `address + size` is an `int`. -/
def free_heap (z : Sizes) (c : Cocomp) (address size : Int) : Cocomp :=
  if address ≥ 0 ∧ wrap32 (address + size) ≤ z.HEAP_SIZE then
    print { c with free_blocks := set_range c.free_blocks address (wrap32 (address + size)) 1 }
      (Msg.freed size address)
  else print c Msg.invalid_heap_address

/-! ## `cocomp2.c` -/

/-- The function `initialize` of `cocomp2.c`; it ends with `initialize_neural_network`, which
prints one line. -/
def initialize_cocomp2 (c : Cocomp) : Cocomp :=
  { memory := fun _ => 0
    page_table := fun _ => INVALID_PAGE
    instruction_pointer := 0
    accumulator := f64 0
    stack_pointer := cocomp2_c.MEMORY_SIZE - cocomp2_c.STACK_SIZE
    heap_pointer := 0
    inter_process_comm := fun _ => 0
    dynamic_code_area := fun _ => 0
    free_blocks := c.free_blocks
    stdout := c.stdout ++ [Msg.neural_network_initialized] }

/-- `load_program`: `memcpy(memory, program, size)` unless `size > MEMORY_SIZE`. The array
`program` is a list; a `size` that is negative or larger than the array is outside what `memcpy`
may read: `none`. -/
def load_program (z : Sizes) (c : Cocomp) (program : List Byte) (size : Int) : Option Cocomp :=
  if size > z.MEMORY_SIZE then some (print c Msg.program_too_large)
  else if size < 0 ∨ size > program.length then none
  else some { c with memory := fun i => if 0 ≤ i ∧ i < size then program.getD i.toNat 0
                                        else c.memory i }

/-- The body of the `switch` of `execute_program` for the fetched byte `instruction`: the new
state and the new value of the local `running`. -/
def execute_case (z : Sizes) (c : Cocomp) (instruction : Byte) : Option (Cocomp × Bool) :=
  let ip := c.instruction_pointer
  if instruction = 0x01 then
    (load_double z c (ip + 1)).map fun v =>
      ({ c with accumulator := v, instruction_pointer := ip + 8 }, true)
  else if instruction = 0x02 then
    (load_double z c (ip + 1)).map fun v =>
      ({ c with accumulator := f64_add c.accumulator v, instruction_pointer := ip + 8 }, true)
  else if instruction = 0x03 then
    (load_int z c (ip + 1)).bind fun address =>
      if address ≥ 0 ∧ address < z.MEMORY_SIZE then
        (store_double z c address c.accumulator).map fun c1 =>
          ({ c1 with instruction_pointer := ip + 4 }, true)
      else
        some ({ print c (Msg.invalid_memory_address address) with
                instruction_pointer := ip + 4 }, true)
  else if instruction = 0x04 then
    (push_stack z c c.accumulator).map fun c1 => (c1, true)
  else if instruction = 0x05 then
    (pop_stack z c).map fun r => ({ r.2 with accumulator := r.1 }, true)
  else if instruction = 0x06 then
    (load_int z c (ip + 1)).map fun target =>
      ({ c with instruction_pointer := wrap32 (target - 1) }, true)
  else if instruction = 0x07 ∨ instruction = 0x0D then
    (push_stack z c (f64_of_int (ip + 1))).bind fun c1 =>
      (load_byte z c1 (ip + 1)).map fun target =>
        ({ c1 with instruction_pointer := (target.val : Int) - 1 }, true)
  else if instruction = 0x08 ∨ instruction = 0x0E then
    (pop_stack z c).map fun r =>
      ({ r.2 with instruction_pointer := wrap32 (f64_to_int r.1 - 1) }, true)
  else if instruction = 0x09 then
    some ({ c with instruction_pointer := ip + 1 }, true)
  else if instruction = 0x0A then
    (load_double z c (ip + 1)).map fun v =>
      ({ c with accumulator := f64_sub c.accumulator v, instruction_pointer := ip + 8 }, true)
  else if instruction = 0x0B then
    (load_double z c (ip + 1)).map fun _ =>
      ({ c with instruction_pointer := ip + 8 }, true)
  else if instruction = 0x0C then
    (load_byte z c (ip + 1)).map fun code =>
      (handle_interrupt { c with instruction_pointer := ip + 1 } (code.val : Int), true)
  else if instruction = 0x0F then
    (load_int z c (ip + 1)).map fun value =>
      ({ c with accumulator := f64_of_int (int_and (f64_to_int c.accumulator) value),
                instruction_pointer := ip + 4 }, true)
  else if instruction = 0x10 then
    (load_int z c (ip + 1)).map fun value =>
      ({ c with accumulator := f64_of_int (int_or (f64_to_int c.accumulator) value),
                instruction_pointer := ip + 4 }, true)
  else if instruction = 0x11 then
    (load_int z c (ip + 1)).map fun value =>
      ({ c with accumulator := f64_of_int (int_xor (f64_to_int c.accumulator) value),
                instruction_pointer := ip + 4 }, true)
  else if instruction = 0x12 then
    (load_int z c (ip + 1)).map fun value =>
      ({ c with accumulator := f64_of_int (int_shl (f64_to_int c.accumulator) value),
                instruction_pointer := ip + 4 }, true)
  else if instruction = 0x13 then
    (load_int z c (ip + 1)).map fun value =>
      ({ c with accumulator := f64_of_int (int_shr (f64_to_int c.accumulator) value),
                instruction_pointer := ip + 4 }, true)
  else if instruction = 0xFF then
    some (c, false)
  else
    some (print c (Msg.unknown_instruction instruction ip), false)

/-- One iteration of the `while` loop of `execute_program`: fetch `memory[instruction_pointer]`,
run the `switch`, then `instruction_pointer++`. The result is the new state and the new value of
`running`; `none` when the iteration accesses a byte outside `memory`. -/
def dispatch (z : Sizes) (c : Cocomp) : Option (Cocomp × Bool) :=
  (load_byte z c c.instruction_pointer).bind fun instruction =>
    (execute_case z c instruction).map fun r =>
      ({ r.1 with instruction_pointer := wrap32 (r.1.instruction_pointer + 1) }, r.2)

/-- How a bounded run of `execute_program` ends. -/
inductive Run where
  /-- The loop condition became false: the function returns, with the final value of `running`. -/
  | returned (running : Bool) (c : Cocomp)
  /-- An iteration accessed a byte outside `memory`. -/
  | undefined
  /-- The bound on the number of iterations was reached with the loop condition still true. -/
  | unfinished (c : Cocomp)

/-- Whether the bounded run ended with `execute_program` returning. -/
def Run.has_returned : Run → Bool
  | Run.returned _ _ => true
  | _ => false

/-- The loop `while (running && instruction_pointer < MEMORY_SIZE)`, at most `fuel` iterations. -/
def execute_loop (z : Sizes) : Nat → Bool → Cocomp → Run
  | 0, running, c =>
    if running = true ∧ c.instruction_pointer < z.MEMORY_SIZE then Run.unfinished c
    else Run.returned running c
  | fuel + 1, running, c =>
    if running = true ∧ c.instruction_pointer < z.MEMORY_SIZE then
      match dispatch z c with
      | none => Run.undefined
      | some (c1, running1) => execute_loop z fuel running1 c1
    else Run.returned running c

/-- `execute_program`: `running` starts as 1. -/
def execute_program (z : Sizes) (fuel : Nat) (c : Cocomp) : Run :=
  execute_loop z fuel true c

/-! ## The page table of `cocomp.c`, the mailbox and the dynamic code area -/

/-- `NUM_PAGES`, that is `MEMORY_SIZE / PAGE_SIZE`. -/
def NUM_PAGES (z : Sizes) : Int := Int.tdiv z.MEMORY_SIZE z.PAGE_SIZE

/-- The page of an address: `address / PAGE_SIZE`, the C division (it truncates toward zero). -/
def page_of (z : Sizes) (address : Int) : Int := Int.tdiv address z.PAGE_SIZE

/-- The conversion of an `int` to `unsigned char`. -/
def to_byte (x : Int) : Byte := byte_of (x % 256).toNat 0

/-- The replacement loop of `simulate_page_fault` in `cocomp.c`, with `n` iterations left, at
index `i`: the first entry that is not `INVALID_PAGE` is made invalid and the loop stops. -/
def evict_first (page_table : Int → Byte) : Nat → Int → (Int → Byte)
  | 0, _ => page_table
  | n + 1, i =>
    if page_table i ≠ INVALID_PAGE then fun j => if j = i then INVALID_PAGE else page_table j
    else evict_first page_table n (i + 1)

/-- `simulate_page_fault` of `cocomp.c`; `none` when `page_number` is outside `page_table`. -/
def simulate_page_fault (z : Sizes) (c : Cocomp) (address : Int) : Option Cocomp :=
  let page_number := page_of z address
  if 0 ≤ page_number ∧ page_number < NUM_PAGES z then
    if c.page_table page_number = INVALID_PAGE then
      some { print c (Msg.page_fault address) with
        page_table := fun j =>
          if j = page_number then to_byte page_number
          else evict_first c.page_table (NUM_PAGES z).toNat 0 j }
    else some c
  else none

/-- `ipc_send` (the same text in both files; `cocomp2.c` writes the bound 10 as a literal). -/
def ipc_send (z : Sizes) (c : Cocomp) (process_id message : Int) : Cocomp :=
  if process_id < 0 ∨ process_id ≥ z.MAX_PROCESSES then print c Msg.invalid_process_id
  else
    print { c with inter_process_comm := fun q => if q = process_id then message
                                                    else c.inter_process_comm q }
      (Msg.ipc_sent process_id message)

/-- `ipc_receive` (the same text in both files): the returned message and the state. -/
def ipc_receive (z : Sizes) (c : Cocomp) (process_id : Int) : Int × Cocomp :=
  if process_id < 0 ∨ process_id ≥ z.MAX_PROCESSES then (-1, print c Msg.invalid_process_id)
  else (c.inter_process_comm process_id,
    print c (Msg.ipc_received process_id (c.inter_process_comm process_id)))

/-- The array after `memcpy(a, code, size)` for `0 <= size`. -/
def copy_in (a : Int → Byte) (code : List Byte) (size : Int) : Int → Byte :=
  fun i => if 0 ≤ i ∧ i < size then code.getD i.toNat 0 else a i

/-- `load_dynamic_code` of `cocomp.c`. The test `size > sizeof(dynamic_code_area)` compares as
`size_t`, so a negative `size` is rejected too. A `size` larger than the array `code` is outside
what `memcpy` may read: `none`. -/
def load_dynamic_code (z : Sizes) (c : Cocomp) (code : List Byte) (size : Int) : Option Cocomp :=
  if size < 0 ∨ size > z.DYNAMIC_CODE_SIZE then some (print c Msg.dynamic_code_too_large)
  else if size > code.length then none
  else some (print { c with dynamic_code_area := copy_in c.dynamic_code_area code size }
    Msg.dynamic_code_loaded)

/-- The first `n` bytes of an array, as a list. -/
def array_list (a : Int → Byte) (n : Nat) : List Byte :=
  (List.range n).map fun (k : Nat) => a k

/-- How a call of `load_dynamic_code` of `cocomp2.c` ends. -/
inductive Loaded where
  /-- The payload was rejected; the function returns with this state. -/
  | rejected (c : Cocomp)
  /-- A copy read past the end of its source array. -/
  | undefined
  /-- The payload was staged and loaded, and `execute_program` was called. -/
  | ran (r : Run)

/-- `load_dynamic_code` of `cocomp2.c`: after staging the payload it calls `load_program` on the
staging area and then `execute_program` (at most `fuel` loop iterations). -/
def load_dynamic_code2 (z : Sizes) (fuel : Nat) (c : Cocomp) (code : List Byte) (size : Int) :
    Loaded :=
  if size < 0 ∨ size > z.DYNAMIC_CODE_SIZE then
    Loaded.rejected (print c Msg.dynamic_code_too_large)
  else if size > code.length then Loaded.undefined
  else
    let c1 := print { c with dynamic_code_area := copy_in c.dynamic_code_area code size }
      Msg.dynamic_code_loaded
    match load_program z c1 (array_list c1.dynamic_code_area z.DYNAMIC_CODE_SIZE.toNat) size with
    | none => Loaded.undefined
    | some c2 => Loaded.ran (execute_program z fuel c2)

/-! ## Inputs used in the statements -/

/-- A machine before initialisation; the initialisers overwrite every field of it but `stdout`
(and, in `cocomp2.c`, `free_blocks`, which that file does not have). -/
def blank : Cocomp :=
  { memory := fun _ => 0
    page_table := fun _ => 0
    instruction_pointer := 0
    accumulator := f64 0
    stack_pointer := 0
    heap_pointer := 0
    inter_process_comm := fun _ => 0
    dynamic_code_area := fun _ => 0
    free_blocks := fun _ => 0
    stdout := [] }

/-- The double `3.14`. -/
def f64_3_14 : Double := f64 0x40091EB851EB851F

/-- The double `2.71`. -/
def f64_2_71 : Double := f64 0x4005AE147AE147AE

/-- The double `5.85`. -/
def f64_5_85 : Double := f64 0x4017666666666666

/-- The sample program `LOAD_FLOAT 3.14, PUSH, LOAD_FLOAT 2.71, ADD x, POP, STORE 0, END` in the
encoding of `execute_program`: 35 bytes, the opcodes at offsets 0, 9, 10, 19, 28, 29 and 34. -/
def sample_program (x : Double) : List Byte :=
  [0x01] ++ double_bytes f64_3_14 ++ [0x04] ++ [0x01] ++ double_bytes f64_2_71 ++
    [0x02] ++ double_bytes x ++ [0x05] ++ [0x03, 0x00, 0x00, 0x00, 0x00] ++ [0xFF]

/-- Initialise (`cocomp2.c`), load the sample program at address 0 and run it for at most `fuel`
loop iterations. -/
def run_sample (c : Cocomp) (x : Double) (fuel : Nat) : Option Run :=
  (load_program cocomp2_c (initialize_cocomp2 c) (sample_program x) 35).map
    (execute_program cocomp2_c fuel)

/-- The memory after `load_program` has copied the sample program into the zeroed arena. -/
def sample_memory (x : Double) : Int → Byte :=
  fun i => if 0 ≤ i ∧ i < 35 then (sample_program x).getD i.toNat 0 else 0

/-- A state of the machine of `cocomp2.c` after initialisation, given by its memory, instruction
pointer, accumulator, stack pointer and printed lines. -/
def sample_state (c : Cocomp) (memory : Int → Byte) (ip : Int) (acc : Double) (sp : Int)
    (out : List Msg) : Cocomp :=
  { initialize_cocomp2 c with
    memory := memory, instruction_pointer := ip, accumulator := acc, stack_pointer := sp,
    stdout := out }

/-- The double `1.0`. -/
def f64_1 : Double := f64 0x3FF0000000000000

/-- The double `2.0`. -/
def f64_2 : Double := f64 0x4000000000000000

/-- Two calls of `push_stack` followed by two calls of `pop_stack`: the two popped values, in the
order they are returned, and the final state. -/
def push2_pop2 (z : Sizes) (c : Cocomp) (v1 v2 : Double) : Option (Double × Double × Cocomp) :=
  (push_stack z c v1).bind fun c1 =>
    (push_stack z c1 v2).bind fun c2 =>
      (pop_stack z c2).bind fun r1 =>
        (pop_stack z r1.2).map fun r2 => (r1.1, r2.1, r2.2)

/-- Blocks `a .. a+size-1` lie inside the heap and are all marked free (a non-zero entry of
`free_blocks`). -/
def free_run (z : Sizes) (free_blocks : Int → Int) (size a : Int) : Prop :=
  0 ≤ a ∧ a + size ≤ z.HEAP_SIZE ∧ ∀ j, a ≤ j → j < a + size → free_blocks j ≠ 0

/-- The state `allocate_heap` leaves when it allocates `size` blocks starting at `a`. -/
def allocated_at (c : Cocomp) (size a : Int) : Cocomp :=
  print { c with free_blocks := set_range c.free_blocks a (a + size) 0, heap_pointer := a }
    (Msg.allocated size a)

/-- Entry `i` is the lowest-index entry of the page table that is resident. -/
def first_resident (z : Sizes) (page_table : Int → Byte) (i : Int) : Prop :=
  0 ≤ i ∧ i < NUM_PAGES z ∧ page_table i ≠ INVALID_PAGE ∧
    ∀ k, 0 ≤ k → k < i → page_table k = INVALID_PAGE

/-- A page table of `cocomp.c` in which page 0 alone is resident. -/
def page0_resident : Cocomp :=
  { initialize_cocomp blank with page_table := fun j => if j = 0 then 0 else INVALID_PAGE }

/-- The machine of `cocomp2.c` after `initialize` and `load_program` of the bytes `program`, with
the stack pointer then set to `sp` (3584 is the value `initialize` gives it). -/
def loaded (program : List Byte) (sp : Int) : Cocomp :=
  { initialize_cocomp2 blank with
    memory := fun i => if 0 ≤ i ∧ i < program.length then program.getD i.toNat 0 else 0
    stack_pointer := sp }

/-- The loaded instruction `STORE 100` at address 0, with the accumulator holding `3.14`. -/
def store_example : Cocomp :=
  { loaded [0x03, 0x64, 0x00, 0x00, 0x00] 3584 with accumulator := f64_3_14 }

/-- The loaded program `CALL 3` at address 0 and `RETURN` at address 3, with the opcodes `call`
and `ret` (`0x07` and `0x08`, or `0x0D` and `0x0E`) and the stack pointer at 4000. -/
def call_return (call ret : Byte) : Cocomp := loaded [call, 0x03, 0x00, ret] 4000

/-- The loaded program `NOP` at address 0 and `END` at address 1. -/
def nop_end : Cocomp := loaded [0x09, 0xFF] 3584

/-- The loaded instruction `JUMP -5` at address 0: the operand bytes are `FB FF FF FF`. -/
def jump_back : Cocomp := loaded [0x06, 0xFB, 0xFF, 0xFF, 0xFF] 3584

/-- Whether the bounded run ended in an access outside `memory`. -/
def Run.is_undefined : Run → Bool
  | Run.undefined => true
  | _ => false

/-- What a run that returned leaves: the final `running`, the instruction pointer and the printed
lines. -/
def Run.outcome : Run → Option (Bool × Int × List Msg)
  | Run.returned running c => some (running, c.instruction_pointer, c.stdout)
  | _ => none

/-- The instruction pointer, the stack pointer and the value of `running` after a loop
iteration. -/
def registers (r : Cocomp × Bool) : Int × Int × Bool :=
  (r.1.instruction_pointer, r.1.stack_pointer, r.2)

/-- The array `program` of `main` in `cocomp2.c`: 18 bytes. -/
def main_program : List Byte :=
  [0x01, 0x40, 0x00, 0x00, 0x00,
   0x04,
   0x01, 0x40, 0x00, 0x00, 0x01,
   0x02,
   0x05,
   0x03, 0x00,
   0x0C, 0x01,
   0xFF]

/-- The first calls of `main` in `cocomp2.c`: `initialize`, `load_program(program,
sizeof(program))` and `execute_program`, for at most `fuel` loop iterations. -/
def run_main (fuel : Nat) : Option Run :=
  (load_program cocomp2_c (initialize_cocomp2 blank) main_program 18).map
    (execute_program cocomp2_c fuel)

/-- The array `dynamic_code` of `main` in `cocomp2.c`: 8 bytes. -/
def main_dynamic_code : List Byte := [0x01, 0x40, 0x00, 0x00, 0x02, 0x06, 0x10, 0xFF]

/-- The state a call of `load_dynamic_code` of `cocomp2.c` returns with, when it returns. -/
def Loaded.final : Loaded → Option Cocomp
  | Loaded.rejected c => some c
  | Loaded.ran (Run.returned _ c) => some c
  | _ => none

/-- The loaded instruction `JUMP 0` at address 0. -/
def jump_self : Cocomp := loaded [0x06, 0x00, 0x00, 0x00, 0x00] 3584

/-- The loaded instruction `STORE 4089` at address 0: the operand bytes are `F9 0F 00 00`. -/
def store_4089 : Cocomp := loaded [0x03, 0xF9, 0x0F, 0x00, 0x00] 3584

/-- A machine of `cocomp2.c` with an empty stack: the stack pointer is at `MEMORY_SIZE`. -/
def empty_stack : Cocomp := loaded [] 4096

/-- Whether every byte that the loop iteration of `execute_program` starting at `c` reads or
writes lies inside `memory`: the opcode at `instruction_pointer`; the operand that the case of the
opcode reads (eight bytes for `0x01`, `0x02`, `0x0A`, `0x0B`, four for `0x03`, `0x06` and
`0x0F..0x13`, one for `0x0C`, `0x07`, `0x0D`); the eight bytes that STORE writes when its address
passes the check; the eight bytes at `stack_pointer - 1` that `push_stack` writes when it reports
no overflow (PUSH, CALL); the eight bytes at `stack_pointer` that `pop_stack` reads when it reports
no underflow (POP, RETURN). -/
@[reducible]
def accesses_inside (z : Sizes) (c : Cocomp) : Prop :=
  (0 ≤ c.instruction_pointer ∧ c.instruction_pointer < z.MEMORY_SIZE) ∧
  (c.memory c.instruction_pointer = 0x01 ∨ c.memory c.instruction_pointer = 0x02 ∨
      c.memory c.instruction_pointer = 0x0A ∨ c.memory c.instruction_pointer = 0x0B →
    c.instruction_pointer + 1 + 8 ≤ z.MEMORY_SIZE) ∧
  (c.memory c.instruction_pointer = 0x03 ∨ c.memory c.instruction_pointer = 0x06 ∨
      c.memory c.instruction_pointer = 0x0F ∨ c.memory c.instruction_pointer = 0x10 ∨
      c.memory c.instruction_pointer = 0x11 ∨ c.memory c.instruction_pointer = 0x12 ∨
      c.memory c.instruction_pointer = 0x13 →
    c.instruction_pointer + 1 + 4 ≤ z.MEMORY_SIZE) ∧
  (c.memory c.instruction_pointer = 0x0C ∨ c.memory c.instruction_pointer = 0x07 ∨
      c.memory c.instruction_pointer = 0x0D →
    c.instruction_pointer + 1 < z.MEMORY_SIZE) ∧
  (c.memory c.instruction_pointer = 0x03 →
    ¬ (read_int c.memory (c.instruction_pointer + 1) ≥ 0 ∧
        read_int c.memory (c.instruction_pointer + 1) < z.MEMORY_SIZE) ∨
      read_int c.memory (c.instruction_pointer + 1) + 8 ≤ z.MEMORY_SIZE) ∧
  (c.memory c.instruction_pointer = 0x04 ∨ c.memory c.instruction_pointer = 0x07 ∨
      c.memory c.instruction_pointer = 0x0D →
    c.stack_pointer ≤ z.MEMORY_SIZE - z.STACK_SIZE ∨
      (0 ≤ c.stack_pointer - 1 ∧ c.stack_pointer - 1 + 8 ≤ z.MEMORY_SIZE)) ∧
  (c.memory c.instruction_pointer = 0x05 ∨ c.memory c.instruction_pointer = 0x08 ∨
      c.memory c.instruction_pointer = 0x0E →
    c.stack_pointer ≥ z.MEMORY_SIZE ∨
      (0 ≤ c.stack_pointer ∧ c.stack_pointer + 8 ≤ z.MEMORY_SIZE))

/-- A sequence of calls of `simulate_page_fault`, one for each address of the list, in order. -/
def page_faults (z : Sizes) : List Int → Cocomp → Option Cocomp
  | [], c => some c
  | address :: rest, c => (simulate_page_fault z c address).bind (page_faults z rest)

/-- At most one entry of the page table is resident. -/
def at_most_one_resident (z : Sizes) (page_table : Int → Byte) : Prop :=
  ∀ i j, 0 ≤ i → i < NUM_PAGES z → 0 ≤ j → j < NUM_PAGES z →
    page_table i ≠ INVALID_PAGE → page_table j ≠ INVALID_PAGE → i = j

theorem wrap32_of_int_range (x : Int) (h0 : -2147483648 ≤ x) (h1 : x < 2147483648) :
    wrap32 x = x := by
  unfold wrap32
  omega

theorem le_value_double_bytes (d : Double) : le_value (double_bytes d) = d.val := by
  have h := d.isLt
  simp only [double_bytes, le_value, byte_of]
  norm_num at h ⊢
  omega

theorem f64_val (d : Double) : f64 d.val = d := by
  apply Fin.ext
  simp only [f64]
  exact Nat.mod_eq_of_lt d.isLt

theorem write_double_inside (m : Int → Byte) (a : Int) (d : Double) (k : Nat) (hk : k < 8) :
    write_double m a d (a + k) = byte_of d.val k := by
  unfold write_double
  have h : a ≤ a + (k : Int) ∧ a + (k : Int) < a + 8 := by omega
  rw [if_pos h]
  congr 1
  omega

theorem write_double_outside (m : Int → Byte) (a : Int) (d : Double) (i : Int)
    (h : i < a ∨ a + 8 ≤ i) : write_double m a d i = m i := by
  unfold write_double
  have h' : ¬ (a ≤ i ∧ i < a + 8) := by omega
  rw [if_neg h']

theorem bytes8_write_double (m : Int → Byte) (a : Int) (d : Double) :
    bytes8 (write_double m a d) a = double_bytes d := by
  have h0 := write_double_inside m a d 0 (by decide)
  have h1 := write_double_inside m a d 1 (by decide)
  have h2 := write_double_inside m a d 2 (by decide)
  have h3 := write_double_inside m a d 3 (by decide)
  have h4 := write_double_inside m a d 4 (by decide)
  have h5 := write_double_inside m a d 5 (by decide)
  have h6 := write_double_inside m a d 6 (by decide)
  have h7 := write_double_inside m a d 7 (by decide)
  simp only [Nat.cast_zero, add_zero, Nat.cast_one, Nat.cast_ofNat] at h0 h1 h2 h3 h4 h5 h6 h7
  simp only [bytes8, double_bytes, h0, h1, h2, h3, h4, h5, h6, h7]

theorem read_write_double (m : Int → Byte) (a : Int) (d : Double) :
    read_double (write_double m a d) a = d := by
  unfold read_double
  rw [bytes8_write_double, le_value_double_bytes, f64_val]

/-! ## The stack at its boundaries -/

/-- Claim C5. `push_stack` called with the stack pointer at or below `MEMORY_SIZE - STACK_SIZE`
writes nothing: the state is unchanged except for the printed line, so the stack pointer and
every memory byte are as before. `pop_stack` called with the stack pointer at or above
`MEMORY_SIZE` returns `0.0` and likewise leaves the stack pointer and the memory unchanged. -/
theorem stack_calls_at_boundary (z : Sizes) (c1 c2 : Cocomp) (value : Double)
    (h1 : c1.stack_pointer ≤ z.MEMORY_SIZE - z.STACK_SIZE)
    (h2 : c2.stack_pointer ≥ z.MEMORY_SIZE) :
    (∃ c, push_stack z c1 value = some c ∧ c.stack_pointer = c1.stack_pointer ∧
        c.memory = c1.memory ∧ c = print c1 Msg.stack_overflow) ∧
    (∃ c, pop_stack z c2 = some (f64 0, c) ∧ c.stack_pointer = c2.stack_pointer ∧
        c.memory = c2.memory ∧ c = print c2 Msg.stack_underflow) := by
  constructor
  · exact ⟨print c1 Msg.stack_overflow, by simp [push_stack, h1], rfl, rfl, rfl⟩
  · exact ⟨print c2 Msg.stack_underflow, by simp [pop_stack, h2], rfl, rfl, rfl⟩

/-- Claim C5 at concrete inputs: a push on the freshly initialised machine of `cocomp2.c`
(stack pointer 3584) and a pop with the stack pointer at 4096. -/
theorem stack_calls_at_boundary_witness :
    (∃ c, push_stack cocomp2_c (initialize_cocomp2 blank) f64_3_14 = some c ∧
        c.stack_pointer = (initialize_cocomp2 blank).stack_pointer ∧
        c.memory = (initialize_cocomp2 blank).memory ∧
        c = print (initialize_cocomp2 blank) Msg.stack_overflow) ∧
    (∃ c, pop_stack cocomp2_c { blank with stack_pointer := 4096 } = some (f64 0, c) ∧
        c.stack_pointer = ({ blank with stack_pointer := 4096 } : Cocomp).stack_pointer ∧
        c.memory = ({ blank with stack_pointer := 4096 } : Cocomp).memory ∧
        c = print { blank with stack_pointer := 4096 } Msg.stack_underflow) :=
  stack_calls_at_boundary cocomp2_c (initialize_cocomp2 blank) { blank with stack_pointer := 4096 }
    f64_3_14 (by decide) (by decide)

/-- Claim C4 (the code at the failing input). On the freshly initialised machine of `cocomp.c`
the stack pointer is `MEMORY_SIZE - STACK_SIZE = 768`, the value at which `push_stack` refuses:
`push_stack(3.14)` only prints the overflow line, and the following `pop_stack` returns `0.0`
(the zero bytes at 768) and moves the stack pointer to 769. -/
theorem fresh_stack_rejects_push :
    push_stack cocomp_c (initialize_cocomp blank) f64_3_14 =
      some (print (initialize_cocomp blank) Msg.stack_overflow) ∧
    (pop_stack cocomp_c (print (initialize_cocomp blank) Msg.stack_overflow)).map
        (fun r => (r.1, r.2.stack_pointer, r.2.stdout)) =
      some (f64 0, 769, [Msg.stack_overflow]) := by
  constructor
  · rfl
  · decide

/-- Claim C3 (the code at the failing input). With the stack pointer at 4000 in a zeroed arena of
`cocomp2.c`, pushing `1.0` and then `2.0` reports no overflow; the first pop returns `2.0`, but
the second pop returns the double with pattern `0x3F40000000000000`, not `1.0`: the second push
moved the stack pointer by one byte only and overwrote seven of the eight bytes of `1.0`. -/
theorem second_pop_returns_mixed_bytes :
    (push2_pop2 cocomp2_c { blank with stack_pointer := 4000 } f64_1 f64_2).map
        (fun r => (r.1, r.2.1, r.2.2.stack_pointer, r.2.2.stdout)) =
      some (f64_2, f64 0x3F40000000000000, 4000, []) ∧
    f64 0x3F40000000000000 ≠ f64_1 := by
  decide

theorem push_stack_overflow (z : Sizes) (c : Cocomp) (value : Double)
    (h : c.stack_pointer ≤ z.MEMORY_SIZE - z.STACK_SIZE) :
    push_stack z c value = some (print c Msg.stack_overflow) := by
  simp [push_stack, h]

theorem pop_stack_inside (z : Sizes) (c : Cocomp) (h0 : 0 ≤ c.stack_pointer)
    (h1 : c.stack_pointer + 8 ≤ z.MEMORY_SIZE) :
    pop_stack z c = some (read_double c.memory c.stack_pointer,
      { c with stack_pointer := c.stack_pointer + 1 }) := by
  have h2 : ¬ c.stack_pointer ≥ z.MEMORY_SIZE := by omega
  simp [pop_stack, load_double, h0, h1, h2]

theorem push_stack_instruction_pointer (z : Sizes) (c c1 : Cocomp) (v : Double)
    (h : push_stack z c v = some c1) : c1.instruction_pointer = c.instruction_pointer := by
  unfold push_stack store_double at h
  split at h
  · cases h; rfl
  · split at h
    · cases h; rfl
    · cases h

theorem pop_stack_instruction_pointer (z : Sizes) (c : Cocomp) (r : Double × Cocomp)
    (h : pop_stack z c = some r) : r.2.instruction_pointer = c.instruction_pointer := by
  unfold pop_stack at h
  split at h
  · cases h; rfl
  · cases hl : load_double z c c.stack_pointer with
    | none => rw [hl] at h; cases h
    | some v => rw [hl] at h; cases h; rfl

/-! ## One loop iteration of `execute_program` -/

theorem dispatch_fetch (z : Sizes) (c : Cocomp) (h0 : 0 ≤ c.instruction_pointer)
    (h1 : c.instruction_pointer < z.MEMORY_SIZE) :
    dispatch z c = (execute_case z c (c.memory c.instruction_pointer)).map fun r =>
      ({ r.1 with instruction_pointer := wrap32 (r.1.instruction_pointer + 1) }, r.2) := by
  simp [dispatch, load_byte, h0, h1]

theorem execute_case_unknown (z : Sizes) (c : Cocomp) (b : Byte)
    (hop : ¬ (1 ≤ b.val ∧ b.val ≤ 0x13)) (hff : b ≠ 0xFF) :
    execute_case z c b =
      some (print c (Msg.unknown_instruction b c.instruction_pointer), false) := by
  have key : ∀ k : Byte, (1 ≤ k.val ∧ k.val ≤ 0x13) → b ≠ k := fun k hk h => hop (h ▸ hk)
  simp [execute_case, hff, key 0x01 (by decide), key 0x02 (by decide), key 0x03 (by decide),
    key 0x04 (by decide), key 0x05 (by decide), key 0x06 (by decide), key 0x07 (by decide),
    key 0x08 (by decide), key 0x09 (by decide), key 0x0A (by decide), key 0x0B (by decide),
    key 0x0C (by decide), key 0x0D (by decide), key 0x0E (by decide), key 0x0F (by decide),
    key 0x10 (by decide), key 0x11 (by decide), key 0x12 (by decide), key 0x13 (by decide)]

theorem execute_loop_stopped (z : Sizes) (fuel : Nat) (c : Cocomp) :
    execute_loop z fuel false c = Run.returned false c := by
  cases fuel <;> simp [execute_loop]

theorem execute_loop_step (z : Sizes) (fuel : Nat) (c c1 : Cocomp) (running1 : Bool)
    (h1 : c.instruction_pointer < z.MEMORY_SIZE) (hd : dispatch z c = some (c1, running1)) :
    execute_loop z (fuel + 1) true c = execute_loop z fuel running1 c1 := by
  simp [execute_loop, h1, hd]

/-- Claim C2. When `0 <= instruction_pointer < MEMORY_SIZE` and the byte there is not an opcode
(not `0x01..0x13`, not `0xFF`), `execute_program` performs exactly one loop iteration and returns
with `running = 0`: the iteration prints the unknown-instruction line and increments the
instruction pointer, and memory, accumulator and stack pointer are what they were. -/
theorem unknown_opcode_halts (z : Sizes) (c : Cocomp) (fuel : Nat)
    (h0 : 0 ≤ c.instruction_pointer) (h1 : c.instruction_pointer < z.MEMORY_SIZE)
    (hop : ¬ (1 ≤ (c.memory c.instruction_pointer).val ∧
      (c.memory c.instruction_pointer).val ≤ 0x13))
    (hff : c.memory c.instruction_pointer ≠ 0xFF) :
    ∃ c1, dispatch z c = some (c1, false) ∧
      execute_program z (fuel + 1) c = Run.returned false c1 ∧
      c1.memory = c.memory ∧ c1.accumulator = c.accumulator ∧
      c1.stack_pointer = c.stack_pointer ∧
      c1.stdout = c.stdout ++
        [Msg.unknown_instruction (c.memory c.instruction_pointer) c.instruction_pointer] := by
  have hd : dispatch z c =
      some ({ print c (Msg.unknown_instruction (c.memory c.instruction_pointer)
                c.instruction_pointer) with
              instruction_pointer := wrap32 (c.instruction_pointer + 1) }, false) := by
    rw [dispatch_fetch z c h0 h1, execute_case_unknown z c _ hop hff]
    rfl
  refine ⟨_, hd, ?_, rfl, rfl, rfl, rfl⟩
  rw [execute_program, execute_loop_step z fuel c _ false h1 hd, execute_loop_stopped]

/-- Claim C2 at a concrete input: the byte `0xEE` at address 0 of the machine of `cocomp2.c`. -/
theorem unknown_opcode_halts_witness :
    ∃ c1, dispatch cocomp2_c { blank with memory := fun _ => 0xEE } = some (c1, false) ∧
      execute_program cocomp2_c (0 + 1) { blank with memory := fun _ => 0xEE } =
        Run.returned false c1 ∧
      c1.memory = ({ blank with memory := fun _ => 0xEE } : Cocomp).memory ∧
      c1.accumulator = ({ blank with memory := fun _ => 0xEE } : Cocomp).accumulator ∧
      c1.stack_pointer = ({ blank with memory := fun _ => 0xEE } : Cocomp).stack_pointer ∧
      c1.stdout = ({ blank with memory := fun _ => 0xEE } : Cocomp).stdout ++
        [Msg.unknown_instruction
          (({ blank with memory := fun _ => 0xEE } : Cocomp).memory
            ({ blank with memory := fun _ => 0xEE } : Cocomp).instruction_pointer)
          ({ blank with memory := fun _ => 0xEE } : Cocomp).instruction_pointer] :=
  unknown_opcode_halts cocomp2_c { blank with memory := fun _ => 0xEE } 0
    (by decide) (by decide) (by decide) (by decide)

/-! ## The opcodes of the sample program (`cocomp2.c`) -/

theorem wrap32_ip_succ (ip : Int) (h0 : 0 ≤ ip) (h1 : ip < 4096) (k : Int) (hk0 : 0 ≤ k)
    (hk1 : k ≤ 8) : wrap32 (ip + k + 1) = ip + (k + 1) := by
  rw [wrap32_of_int_range] <;> omega

theorem dispatch_load_float (c : Cocomp) (hop : c.memory c.instruction_pointer = 0x01)
    (h0 : 0 ≤ c.instruction_pointer) (h1 : c.instruction_pointer + 9 ≤ 4096) :
    dispatch cocomp2_c c = some ({ c with
      accumulator := read_double c.memory (c.instruction_pointer + 1)
      instruction_pointer := c.instruction_pointer + 9 }, true) := by
  have hw := wrap32_ip_succ c.instruction_pointer h0 (by omega) 8 (by omega) (by omega)
  rw [dispatch_fetch cocomp2_c c h0 (by simp only [cocomp2_c]; omega), hop]
  have h2 : 0 ≤ c.instruction_pointer + 1 ∧ c.instruction_pointer + 1 + 8 ≤ 4096 := by omega
  simp [execute_case, load_double, cocomp2_c, h2, hw]

theorem dispatch_add (c : Cocomp) (hop : c.memory c.instruction_pointer = 0x02)
    (h0 : 0 ≤ c.instruction_pointer) (h1 : c.instruction_pointer + 9 ≤ 4096) :
    dispatch cocomp2_c c = some ({ c with
      accumulator := f64_add c.accumulator (read_double c.memory (c.instruction_pointer + 1))
      instruction_pointer := c.instruction_pointer + 9 }, true) := by
  have hw := wrap32_ip_succ c.instruction_pointer h0 (by omega) 8 (by omega) (by omega)
  rw [dispatch_fetch cocomp2_c c h0 (by simp only [cocomp2_c]; omega), hop]
  have h2 : 0 ≤ c.instruction_pointer + 1 ∧ c.instruction_pointer + 1 + 8 ≤ 4096 := by omega
  simp [execute_case, load_double, cocomp2_c, h2, hw]

theorem execute_case_store (z : Sizes) (c : Cocomp) :
    execute_case z c 0x03 =
      (load_int z c (c.instruction_pointer + 1)).bind fun address =>
        if address ≥ 0 ∧ address < z.MEMORY_SIZE then
          (store_double z c address c.accumulator).map fun c1 =>
            ({ c1 with instruction_pointer := c.instruction_pointer + 4 }, true)
        else
          some ({ print c (Msg.invalid_memory_address address) with
                  instruction_pointer := c.instruction_pointer + 4 }, true) := by
  simp [execute_case]

theorem dispatch_store (c : Cocomp) (hop : c.memory c.instruction_pointer = 0x03)
    (h0 : 0 ≤ c.instruction_pointer) (h1 : c.instruction_pointer + 5 ≤ 4096)
    (ha0 : 0 ≤ read_int c.memory (c.instruction_pointer + 1))
    (ha1 : read_int c.memory (c.instruction_pointer + 1) + 8 ≤ 4096) :
    dispatch cocomp2_c c = some ({ c with
      memory := write_double c.memory (read_int c.memory (c.instruction_pointer + 1))
        c.accumulator
      instruction_pointer := c.instruction_pointer + 5 }, true) := by
  have hw := wrap32_ip_succ c.instruction_pointer h0 (by omega) 4 (by omega) (by omega)
  rw [dispatch_fetch cocomp2_c c h0 (by simp only [cocomp2_c]; omega), hop, execute_case_store]
  have h2 : 0 ≤ c.instruction_pointer + 1 ∧ c.instruction_pointer + 1 + 4 ≤ cocomp2_c.MEMORY_SIZE := by
    simp only [cocomp2_c]; omega
  have h3 : read_int c.memory (c.instruction_pointer + 1) ≥ 0 ∧
      read_int c.memory (c.instruction_pointer + 1) < cocomp2_c.MEMORY_SIZE := by
    simp only [cocomp2_c]; omega
  have h4 : 0 ≤ read_int c.memory (c.instruction_pointer + 1) ∧
      read_int c.memory (c.instruction_pointer + 1) + 8 ≤ cocomp2_c.MEMORY_SIZE := by
    simp only [cocomp2_c]; omega
  simp only [load_int, if_pos h2, Option.bind, if_pos h3, store_double, if_pos h4, Option.map]
  rw [hw]
  norm_num

theorem dispatch_push (c : Cocomp) (hop : c.memory c.instruction_pointer = 0x04)
    (h0 : 0 ≤ c.instruction_pointer) (h1 : c.instruction_pointer < 4096) :
    dispatch cocomp2_c c = (push_stack cocomp2_c c c.accumulator).map fun c1 =>
      ({ c1 with instruction_pointer := c.instruction_pointer + 1 }, true) := by
  have hw : wrap32 (c.instruction_pointer + 1) = c.instruction_pointer + 1 :=
    wrap32_of_int_range _ (by omega) (by omega)
  have hc : execute_case cocomp2_c c 0x04 =
      (push_stack cocomp2_c c c.accumulator).map fun c1 => (c1, true) := by
    simp [execute_case]
  rw [dispatch_fetch cocomp2_c c h0 (by simp only [cocomp2_c]; omega), hop, hc]
  cases h : push_stack cocomp2_c c c.accumulator with
  | none => rfl
  | some c1 =>
    simp only [Option.map, push_stack_instruction_pointer _ _ _ _ h, hw]

theorem dispatch_pop (c : Cocomp) (hop : c.memory c.instruction_pointer = 0x05)
    (h0 : 0 ≤ c.instruction_pointer) (h1 : c.instruction_pointer < 4096) :
    dispatch cocomp2_c c = (pop_stack cocomp2_c c).map fun r =>
      ({ r.2 with accumulator := r.1, instruction_pointer := c.instruction_pointer + 1 },
        true) := by
  have hw : wrap32 (c.instruction_pointer + 1) = c.instruction_pointer + 1 :=
    wrap32_of_int_range _ (by omega) (by omega)
  have hc : execute_case cocomp2_c c 0x05 =
      (pop_stack cocomp2_c c).map fun r => ({ r.2 with accumulator := r.1 }, true) := by
    simp [execute_case]
  rw [dispatch_fetch cocomp2_c c h0 (by simp only [cocomp2_c]; omega), hop, hc]
  cases h : pop_stack cocomp2_c c with
  | none => rfl
  | some r =>
    simp only [Option.map, pop_stack_instruction_pointer _ _ _ h, hw]

theorem dispatch_end (c : Cocomp) (hop : c.memory c.instruction_pointer = 0xFF)
    (h0 : 0 ≤ c.instruction_pointer) (h1 : c.instruction_pointer < 4096) :
    dispatch cocomp2_c c =
      some ({ c with instruction_pointer := c.instruction_pointer + 1 }, false) := by
  have hw := wrap32_ip_succ c.instruction_pointer h0 h1 0 (by omega) (by omega)
  rw [dispatch_fetch cocomp2_c c h0 (by simp only [cocomp2_c]; omega), hop]
  simp only [add_zero, zero_add] at hw
  simp [execute_case, hw]

/-! ## The sample program -/

theorem sample_load (c : Cocomp) (x : Double) :
    load_program cocomp2_c (initialize_cocomp2 c) (sample_program x) 35 =
      some (sample_state c (sample_memory x) 0 (f64 0) 3584 (initialize_cocomp2 c).stdout) := by
  rfl

theorem sample_read_1 (x : Double) : read_double (sample_memory x) 1 = f64_3_14 := by
  have h : bytes8 (sample_memory x) 1 = double_bytes f64_3_14 := rfl
  rw [read_double, h, le_value_double_bytes, f64_val]

theorem sample_read_11 (x : Double) : read_double (sample_memory x) 11 = f64_2_71 := by
  have h : bytes8 (sample_memory x) 11 = double_bytes f64_2_71 := rfl
  rw [read_double, h, le_value_double_bytes, f64_val]

theorem sample_read_20 (x : Double) : read_double (sample_memory x) 20 = x := by
  have h : bytes8 (sample_memory x) 20 = double_bytes x := rfl
  rw [read_double, h, le_value_double_bytes, f64_val]

theorem sample_read_3584 (x : Double) : read_double (sample_memory x) 3584 = f64 0 := by
  have h : bytes8 (sample_memory x) 3584 = [0, 0, 0, 0, 0, 0, 0, 0] := rfl
  rw [read_double, h]
  decide

theorem sample_read_30 (x : Double) : read_int (sample_memory x) 30 = 0 := by
  have h0 : sample_memory x 30 = 0 := rfl
  have h1 : sample_memory x (30 + 1) = 0 := rfl
  have h2 : sample_memory x (30 + 2) = 0 := rfl
  have h3 : sample_memory x (30 + 3) = 0 := rfl
  rw [read_int, h0, h1, h2, h3]
  decide


theorem sample_run_fuel (c : Cocomp) (x : Double) (fuel : Nat) :
    run_sample c x (fuel + 7) = some (Run.returned false
      (sample_state c (write_double (sample_memory x) 0 (f64 0)) 35 (f64 0) 3585
        ((initialize_cocomp2 c).stdout ++ [Msg.stack_overflow]))) := by
  have e1 : dispatch cocomp2_c
        (sample_state c (sample_memory x) 0 (f64 0) 3584 (initialize_cocomp2 c).stdout) =
      some (sample_state c (sample_memory x) 9 f64_3_14 3584 (initialize_cocomp2 c).stdout,
        true) := by
    rw [dispatch_load_float _ rfl (by simp [sample_state]) (by simp [sample_state])]
    simp [sample_state, sample_read_1]
  have e2 : dispatch cocomp2_c
        (sample_state c (sample_memory x) 9 f64_3_14 3584 (initialize_cocomp2 c).stdout) =
      some (sample_state c (sample_memory x) 10 f64_3_14 3584
        ((initialize_cocomp2 c).stdout ++ [Msg.stack_overflow]), true) := by
    rw [dispatch_push _ rfl (by simp [sample_state]) (by simp [sample_state]),
      push_stack_overflow _ _ _ (by simp [sample_state, cocomp2_c])]
    simp [sample_state, print]
  have e3 : dispatch cocomp2_c
        (sample_state c (sample_memory x) 10 f64_3_14 3584
          ((initialize_cocomp2 c).stdout ++ [Msg.stack_overflow])) =
      some (sample_state c (sample_memory x) 19 f64_2_71 3584
        ((initialize_cocomp2 c).stdout ++ [Msg.stack_overflow]), true) := by
    rw [dispatch_load_float _ rfl (by simp [sample_state]) (by simp [sample_state])]
    simp [sample_state, sample_read_11]
  have e4 : dispatch cocomp2_c
        (sample_state c (sample_memory x) 19 f64_2_71 3584
          ((initialize_cocomp2 c).stdout ++ [Msg.stack_overflow])) =
      some (sample_state c (sample_memory x) 28 (f64_add f64_2_71 x) 3584
        ((initialize_cocomp2 c).stdout ++ [Msg.stack_overflow]), true) := by
    rw [dispatch_add _ rfl (by simp [sample_state]) (by simp [sample_state])]
    simp [sample_state, sample_read_20]
  have e5 : dispatch cocomp2_c
        (sample_state c (sample_memory x) 28 (f64_add f64_2_71 x) 3584
          ((initialize_cocomp2 c).stdout ++ [Msg.stack_overflow])) =
      some (sample_state c (sample_memory x) 29 (f64 0) 3585
        ((initialize_cocomp2 c).stdout ++ [Msg.stack_overflow]), true) := by
    rw [dispatch_pop _ rfl (by simp [sample_state]) (by simp [sample_state]),
      pop_stack_inside _ _ (by simp [sample_state]) (by simp [sample_state, cocomp2_c])]
    simp [sample_state, sample_read_3584]
  have e6 : dispatch cocomp2_c
        (sample_state c (sample_memory x) 29 (f64 0) 3585
          ((initialize_cocomp2 c).stdout ++ [Msg.stack_overflow])) =
      some (sample_state c (write_double (sample_memory x) 0 (f64 0)) 34 (f64 0) 3585
        ((initialize_cocomp2 c).stdout ++ [Msg.stack_overflow]), true) := by
    have hi : read_int (sample_state c (sample_memory x) 29 (f64 0) 3585
        ((initialize_cocomp2 c).stdout ++ [Msg.stack_overflow])).memory
        ((sample_state c (sample_memory x) 29 (f64 0) 3585
        ((initialize_cocomp2 c).stdout ++ [Msg.stack_overflow])).instruction_pointer + 1) = 0 := by
      simp [sample_state, sample_read_30]
    rw [dispatch_store _ rfl (by simp [sample_state]) (by simp [sample_state])
      (by rw [hi]) (by rw [hi]; decide), hi]
    simp [sample_state]
  have e7 : dispatch cocomp2_c
        (sample_state c (write_double (sample_memory x) 0 (f64 0)) 34 (f64 0) 3585
          ((initialize_cocomp2 c).stdout ++ [Msg.stack_overflow])) =
      some (sample_state c (write_double (sample_memory x) 0 (f64 0)) 35 (f64 0) 3585
        ((initialize_cocomp2 c).stdout ++ [Msg.stack_overflow]), false) := by
    rw [dispatch_end _ rfl (by simp [sample_state]) (by simp [sample_state])]
    simp [sample_state]
  have hlt : ∀ (m : Int → Byte) (ip : Int) (acc : Double) (sp : Int) (out : List Msg),
      ip < 4096 → (sample_state c m ip acc sp out).instruction_pointer < cocomp2_c.MEMORY_SIZE :=
    fun _ _ _ _ _ h => h
  rw [run_sample, sample_load, Option.map, execute_program,
    execute_loop_step _ _ _ _ _ (hlt _ _ _ _ _ (by decide)) e1,
    execute_loop_step _ _ _ _ _ (hlt _ _ _ _ _ (by decide)) e2,
    execute_loop_step _ _ _ _ _ (hlt _ _ _ _ _ (by decide)) e3,
    execute_loop_step _ _ _ _ _ (hlt _ _ _ _ _ (by decide)) e4,
    execute_loop_step _ _ _ _ _ (hlt _ _ _ _ _ (by decide)) e5,
    execute_loop_step _ _ _ _ _ (hlt _ _ _ _ _ (by decide)) e6,
    execute_loop_step _ _ _ _ _ (hlt _ _ _ _ _ (by decide)) e7,
    execute_loop_stopped]

theorem sample_run (c : Cocomp) (x : Double) :
    run_sample c x 7 = some (Run.returned false
      (sample_state c (write_double (sample_memory x) 0 (f64 0)) 35 (f64 0) 3585
        ((initialize_cocomp2 c).stdout ++ [Msg.stack_overflow]))) :=
  sample_run_fuel c x 0

theorem double_bytes_injective (a b : Double) (h : double_bytes a = double_bytes b) : a = b := by
  have h1 := congrArg le_value h
  rw [le_value_double_bytes, le_value_double_bytes] at h1
  exact Fin.ext h1

theorem sample_run_short :
    ∀ k : Fin 7, (run_sample blank f64_3_14 k.val).map Run.has_returned = some false := by
  decide

/-- Claim C1, refuted at a concrete input. The sample program with ADD operand `3.14` (so that ADD
itself computes `2.71 + 3.14 = 5.85`), run on the freshly initialised machine of `cocomp2.c`:
the run returns after seven loop iterations with bytes `0..7` of memory all zero, and with no
bound on the number of iterations does it return with those bytes equal to the encoding of
`5.85`. -/
theorem sample_program_does_not_store_5_85 :
    f64_add f64_2_71 f64_3_14 = f64_5_85 ∧
    (∃ c, run_sample blank f64_3_14 7 = some (Run.returned false c) ∧
      bytes8 c.memory 0 = [0, 0, 0, 0, 0, 0, 0, 0]) ∧
    ¬ ∃ fuel running c, run_sample blank f64_3_14 fuel = some (Run.returned running c) ∧
      bytes8 c.memory 0 = double_bytes f64_5_85 := by
  refine ⟨by decide, ⟨_, sample_run blank f64_3_14, ?_⟩, ?_⟩
  · simp only [sample_state, bytes8_write_double]
    decide
  · rintro ⟨fuel, running, c, hrun, hbytes⟩
    by_cases hf : fuel < 7
    · have h := sample_run_short ⟨fuel, hf⟩
      simp only [hrun, Option.map, Run.has_returned] at h
      cases h
    · obtain ⟨k, rfl⟩ : ∃ k, fuel = k + 7 := ⟨fuel - 7, by omega⟩
      rw [sample_run_fuel] at hrun
      cases hrun
      simp only [sample_state, bytes8_write_double] at hbytes
      exact absurd (double_bytes_injective _ _ hbytes) (by decide)

/-- Claim C1 as amended. For every ADD operand `x` (and `y`), the sample program run on a freshly
initialised machine of `cocomp2.c` returns after seven loop iterations, halted by the END opcode:
`running` is 0, the instruction pointer is 35 and the byte at 34 is `0xFF`. Bytes `0..7` of memory
then hold the encoding of the accumulator as POP left it; ADD's sum has been overwritten, so the
accumulator and the stored bytes are the same for every operand, and they are never the encoding
of `5.85`. -/
theorem sample_program_stores_popped_value (c : Cocomp) (x y : Double) (fuel : Nat) :
    ∃ cx cy, run_sample c x (fuel + 7) = some (Run.returned false cx) ∧
      run_sample c y (fuel + 7) = some (Run.returned false cy) ∧
      cx.instruction_pointer = 35 ∧ cx.memory 34 = 0xFF ∧
      bytes8 cx.memory 0 = double_bytes cx.accumulator ∧
      cx.accumulator = cy.accumulator ∧
      bytes8 cx.memory 0 = bytes8 cy.memory 0 ∧
      bytes8 cx.memory 0 ≠ double_bytes f64_5_85 := by
  refine ⟨_, _, sample_run_fuel c x fuel, sample_run_fuel c y fuel, rfl, rfl, ?_, rfl, ?_, ?_⟩
  · simp only [sample_state, bytes8_write_double]
  · simp only [sample_state, bytes8_write_double]
  · simp only [sample_state, bytes8_write_double]
    intro h
    exact absurd (double_bytes_injective _ _ h) (by decide)

/-! ## The heap of `cocomp.c` -/

theorem allocate_heap_loop_spec (z : Sizes) (size : Int) (hsize : 1 ≤ size) (c : Cocomp) :
    ∀ (n : Nat) (i s k : Int), 0 ≤ i → n = (z.HEAP_SIZE - i).toNat → 0 ≤ k → k < size →
      (k = 0 → s = -1) → (0 < k → s = i - k) → k ≤ i →
      (∀ j, i - k ≤ j → j < i → c.free_blocks j ≠ 0) →
      (∀ a, free_run z c.free_blocks size a → i - k ≤ a) →
      (∃ a, free_run z c.free_blocks size a ∧
          (∀ a', free_run z c.free_blocks size a' → a ≤ a') ∧
          allocate_heap_loop size n i s k c = allocated_at c size a) ∨
      ((∀ a, ¬ free_run z c.free_blocks size a) ∧
          allocate_heap_loop size n i s k c = print c Msg.heap_allocation_failed) := by
  intro n
  induction n with
  | zero =>
    intro i s k hi hn hk0 hk hs0 hs1 hki hfree hleast
    right
    refine ⟨?_, rfl⟩
    intro a ha
    have h1 := hleast a ha
    obtain ⟨_, h3, _⟩ := ha
    omega
  | succ n ih =>
    intro i s k hi hn hk0 hk hs0 hs1 hki hfree hleast
    unfold allocate_heap_loop
    by_cases hb : c.free_blocks i ≠ 0
    · have hstart : (if s = -1 then i else s) = i - k := by
        by_cases hk' : k = 0
        · rw [if_pos (hs0 hk'), hk']; omega
        · have h := hs1 (by omega)
          rw [if_neg (by omega), h]
      rw [if_pos hb]
      simp only [hstart]
      by_cases hfull : k + 1 = size
      · left
        refine ⟨i - k, ⟨by omega, by omega, ?_⟩, hleast, ?_⟩
        · intro j hj1 hj2
          by_cases hji : j < i
          · exact hfree j hj1 hji
          · have : j = i := by omega
            rw [this]; exact hb
        · rw [if_pos hfull]
          rfl
      · rw [if_neg hfull]
        apply ih (i + 1) (i - k) (k + 1) (by omega) (by omega) (by omega) (by omega)
          (by omega) (by omega) (by omega)
        · intro j hj1 hj2
          by_cases hji : j < i
          · exact hfree j (by omega) hji
          · have : j = i := by omega
            rw [this]; exact hb
        · intro a ha
          have := hleast a ha
          omega
    · rw [if_neg hb]
      apply ih (i + 1) (-1) 0 (by omega) (by omega) (by omega) (by omega)
        (by omega) (by omega) (by omega)
      · intro j hj1 hj2
        omega
      · intro a ha
        have h1 := hleast a ha
        by_contra hlt
        obtain ⟨_, _, h4⟩ := ha
        exact hb (h4 i (by omega) (by omega))

theorem allocate_heap_spec (z : Sizes) (c : Cocomp) (size : Int) (hsize : 1 ≤ size) :
    (∃ a, free_run z c.free_blocks size a ∧
        (∀ a', free_run z c.free_blocks size a' → a ≤ a') ∧
        allocate_heap z c size = allocated_at c size a) ∨
    ((∀ a, ¬ free_run z c.free_blocks size a) ∧
        allocate_heap z c size = print c Msg.heap_allocation_failed) := by
  unfold allocate_heap
  apply allocate_heap_loop_spec z size hsize c z.HEAP_SIZE.toNat 0 (-1) 0 (by omega) (by simp)
    (by omega) (by omega) (by omega) (by omega) (by omega)
  · intro j hj1 hj2
    omega
  · intro a ha
    obtain ⟨h, _⟩ := ha
    omega

theorem allocate_heap_success (z : Sizes) (c : Cocomp) (size p : Int) (hsize : 1 ≤ size)
    (hs : (allocate_heap z c size).stdout = c.stdout ++ [Msg.allocated size p]) :
    free_run z c.free_blocks size p ∧
      (∀ a, free_run z c.free_blocks size a → p ≤ a) ∧
      allocate_heap z c size = allocated_at c size p := by
  rcases allocate_heap_spec z c size hsize with ⟨a, hrun, hleast, heq⟩ | ⟨_, heq⟩
  · rw [heq] at hs
    simp [allocated_at, print] at hs
    subst hs
    exact ⟨hrun, hleast, heq⟩
  · rw [heq] at hs
    simp [print] at hs

/-- Claim C6. For every free bitmap and every `size >= 1` for which some run of `size` free
blocks lies inside the heap (so `size <= HEAP_SIZE`), `allocate_heap` of `cocomp.c` takes the
least start `a` of such a run (first fit): afterwards `heap_pointer = a`, the blocks
`a .. a+size-1`, which were free, are marked used (0), every other entry of `free_blocks` is
unchanged, and the line printed names `size` and `a`. -/
theorem allocate_heap_first_fit (z : Sizes) (c : Cocomp) (size : Int) (hsize : 1 ≤ size)
    (hex : ∃ a, free_run z c.free_blocks size a) :
    ∃ a, free_run z c.free_blocks size a ∧
      (∀ a', free_run z c.free_blocks size a' → a ≤ a') ∧
      (allocate_heap z c size).heap_pointer = a ∧
      (∀ j, a ≤ j → j < a + size → (allocate_heap z c size).free_blocks j = 0) ∧
      (∀ j, ¬ (a ≤ j ∧ j < a + size) →
        (allocate_heap z c size).free_blocks j = c.free_blocks j) ∧
      (allocate_heap z c size).stdout = c.stdout ++ [Msg.allocated size a] := by
  rcases allocate_heap_spec z c size hsize with ⟨a, hrun, hleast, heq⟩ | ⟨hno, _⟩
  · refine ⟨a, hrun, hleast, ?_, ?_, ?_, ?_⟩
    · rw [heq]; rfl
    · intro j h1 h2
      rw [heq]
      simp [allocated_at, print, set_range, h1, h2]
    · intro j hj
      rw [heq]
      simp [allocated_at, print, set_range, hj]
    · rw [heq]; rfl
  · obtain ⟨a, ha⟩ := hex
    exact absurd ha (hno a)

/-- Claim C6 at a concrete input: `allocate_heap(10)` on the freshly initialised machine of
`cocomp.c`, where the run starting at block 0 is free. -/
theorem allocate_heap_first_fit_witness :
    ∃ a, free_run cocomp_c (initialize_cocomp blank).free_blocks 10 a ∧
      (∀ a', free_run cocomp_c (initialize_cocomp blank).free_blocks 10 a' → a ≤ a') ∧
      (allocate_heap cocomp_c (initialize_cocomp blank) 10).heap_pointer = a ∧
      (∀ j, a ≤ j → j < a + 10 →
        (allocate_heap cocomp_c (initialize_cocomp blank) 10).free_blocks j = 0) ∧
      (∀ j, ¬ (a ≤ j ∧ j < a + 10) →
        (allocate_heap cocomp_c (initialize_cocomp blank) 10).free_blocks j =
          (initialize_cocomp blank).free_blocks j) ∧
      (allocate_heap cocomp_c (initialize_cocomp blank) 10).stdout =
        (initialize_cocomp blank).stdout ++ [Msg.allocated 10 a] :=
  allocate_heap_first_fit cocomp_c (initialize_cocomp blank) 10 (by decide)
    ⟨0, by decide, by decide, fun _ _ _ => (by decide : (0x01010101 : Int) ≠ 0)⟩

/-- Claim C8. For every free bitmap and every `size >= 1` for which no run of `size` free blocks
lies inside the heap (in particular for `size > HEAP_SIZE`), `allocate_heap` of `cocomp.c` changes
neither `free_blocks` nor `heap_pointer`: it only prints the failure line. -/
theorem allocate_heap_failure (z : Sizes) (c : Cocomp) (size : Int) (hsize : 1 ≤ size)
    (hno : ∀ a, ¬ free_run z c.free_blocks size a) :
    (allocate_heap z c size).free_blocks = c.free_blocks ∧
      (allocate_heap z c size).heap_pointer = c.heap_pointer ∧
      allocate_heap z c size = print c Msg.heap_allocation_failed := by
  rcases allocate_heap_spec z c size hsize with ⟨a, hrun, _, _⟩ | ⟨_, heq⟩
  · exact absurd hrun (hno a)
  · rw [heq]
    exact ⟨rfl, rfl, rfl⟩

/-- Claim C8 at a concrete input: `allocate_heap(300)` on the freshly initialised machine of
`cocomp.c`, whose heap has 256 blocks. -/
theorem allocate_heap_failure_witness :
    (allocate_heap cocomp_c (initialize_cocomp blank) 300).free_blocks =
        (initialize_cocomp blank).free_blocks ∧
      (allocate_heap cocomp_c (initialize_cocomp blank) 300).heap_pointer =
        (initialize_cocomp blank).heap_pointer ∧
      allocate_heap cocomp_c (initialize_cocomp blank) 300 =
        print (initialize_cocomp blank) Msg.heap_allocation_failed :=
  allocate_heap_failure cocomp_c (initialize_cocomp blank) 300 (by decide)
    (fun a h => by
      have h1 : (0 : Int) ≤ a := h.1
      have h2 : a + 300 ≤ 256 := h.2.1
      omega)

/-- Claim C7. For every free bitmap and every `k >= 1`, if `allocate_heap(k)` of `cocomp.c`
succeeds (it prints the allocation line, for some start `p`), then `free_heap(heap_pointer, k)`
called right after it leaves every block with the free/used status it had before the allocation
(`HEAP_SIZE` being an `int`). -/
theorem allocate_then_free_restores (z : Sizes) (c : Cocomp) (k p : Int) (hk : 1 ≤ k)
    (hH : z.HEAP_SIZE ≤ 2147483647)
    (hs : (allocate_heap z c k).stdout = c.stdout ++ [Msg.allocated k p]) :
    ∀ j, (free_heap z (allocate_heap z c k) (allocate_heap z c k).heap_pointer k).free_blocks j
        ≠ 0 ↔ c.free_blocks j ≠ 0 := by
  obtain ⟨⟨hp0, hp1, hfree⟩, _, heq⟩ := allocate_heap_success z c k p hk hs
  intro j
  have hw : wrap32 (p + k) = p + k := wrap32_of_int_range _ (by omega) (by omega)
  have hguard : p ≥ 0 ∧ p + k ≤ z.HEAP_SIZE := ⟨hp0, hp1⟩
  rw [heq]
  simp only [allocated_at, print, free_heap, hw, hguard, and_self, if_true, set_range]
  by_cases hj : p ≤ j ∧ j < p + k
  · simp only [hj, and_self, if_true]
    have := hfree j hj.1 hj.2
    simp [this]
  · simp only [hj, if_false]

/-- Claim C7 at a concrete input: `allocate_heap(10)` then `free_heap(heap_pointer, 10)` on the
freshly initialised machine of `cocomp.c`, as in `main`. -/
theorem allocate_then_free_restores_witness :
    (allocate_heap cocomp_c (initialize_cocomp blank) 10).stdout =
        (initialize_cocomp blank).stdout ++ [Msg.allocated 10 0] ∧
    ∀ j, (free_heap cocomp_c (allocate_heap cocomp_c (initialize_cocomp blank) 10)
        (allocate_heap cocomp_c (initialize_cocomp blank) 10).heap_pointer 10).free_blocks j
        ≠ 0 ↔ (initialize_cocomp blank).free_blocks j ≠ 0 :=
  ⟨by decide,
    allocate_then_free_restores cocomp_c (initialize_cocomp blank) 10 0 (by decide) (by decide)
      (by decide)⟩

/-- Claim C9. For every free bitmap and sizes `a, b >= 1`, if `allocate_heap(a)` succeeds with
start `p` and the following `allocate_heap(b)` succeeds with start `q`, then no block lies in both
`[p, p+a)` and `[q, q+b)`, and after both calls every block of either range is marked used. -/
theorem sequential_allocations_disjoint (z : Sizes) (c : Cocomp) (a b p q : Int)
    (ha : 1 ≤ a) (hb : 1 ≤ b)
    (h1 : (allocate_heap z c a).stdout = c.stdout ++ [Msg.allocated a p])
    (h2 : (allocate_heap z (allocate_heap z c a) b).stdout =
      (allocate_heap z c a).stdout ++ [Msg.allocated b q]) :
    (∀ j, ¬ ((p ≤ j ∧ j < p + a) ∧ (q ≤ j ∧ j < q + b))) ∧
    (∀ j, (p ≤ j ∧ j < p + a) ∨ (q ≤ j ∧ j < q + b) →
      (allocate_heap z (allocate_heap z c a) b).free_blocks j = 0) := by
  obtain ⟨_, _, heq1⟩ := allocate_heap_success z c a p ha h1
  obtain ⟨⟨_, _, hfree2⟩, _, heq2⟩ := allocate_heap_success z (allocate_heap z c a) b q hb h2
  have hdisj : ∀ j, ¬ ((p ≤ j ∧ j < p + a) ∧ (q ≤ j ∧ j < q + b)) := by
    intro j hj
    have h := hfree2 j hj.2.1 hj.2.2
    rw [heq1] at h
    simp [allocated_at, print, set_range, hj.1] at h
  refine ⟨hdisj, ?_⟩
  intro j hj
  rw [heq2, heq1]
  by_cases hq : q ≤ j ∧ j < q + b
  · simp [allocated_at, print, set_range, hq]
  · have hp : p ≤ j ∧ j < p + a := by tauto
    simp [allocated_at, print, set_range, hq, hp]

/-- Claim C9 at a concrete input: `allocate_heap(10)` then `allocate_heap(20)` on the freshly
initialised machine of `cocomp.c`; the starts are 0 and 10. -/
theorem sequential_allocations_disjoint_witness :
    (allocate_heap cocomp_c (initialize_cocomp blank) 10).stdout =
        (initialize_cocomp blank).stdout ++ [Msg.allocated 10 0] ∧
    (allocate_heap cocomp_c (allocate_heap cocomp_c (initialize_cocomp blank) 10) 20).stdout =
        (allocate_heap cocomp_c (initialize_cocomp blank) 10).stdout ++ [Msg.allocated 20 10] ∧
    (∀ j : Int, ¬ ((0 ≤ j ∧ j < 0 + 10) ∧ (10 ≤ j ∧ j < 10 + 20))) ∧
    (∀ j : Int, (0 ≤ j ∧ j < 0 + 10) ∨ (10 ≤ j ∧ j < 10 + 20) →
      (allocate_heap cocomp_c (allocate_heap cocomp_c (initialize_cocomp blank) 10) 20).free_blocks
        j = 0) :=
  ⟨by decide, by decide,
    sequential_allocations_disjoint cocomp_c (initialize_cocomp blank) 10 20 0 10
      (by decide) (by decide) (by decide) (by decide)⟩

/-- Claim C10. For every free bitmap and all `int` arguments `address` and `size` (`HEAP_SIZE`
being an `int`): if `address < 0` or `address + size > HEAP_SIZE`, `free_heap` of `cocomp.c`
leaves `free_blocks` unchanged; otherwise the blocks `address .. address+size-1` are free (1)
afterwards whatever they were before, and every other entry is unchanged; `heap_pointer` is
unchanged in both cases. -/
theorem free_heap_range_check (z : Sizes) (c : Cocomp) (address size : Int)
    (hH : z.HEAP_SIZE ≤ 2147483647)
    (ha0 : -2147483648 ≤ address) (ha1 : address ≤ 2147483647)
    (hs0 : -2147483648 ≤ size) (hs1 : size ≤ 2147483647) :
    ((address < 0 ∨ address + size > z.HEAP_SIZE) →
      (free_heap z c address size).free_blocks = c.free_blocks) ∧
    (¬ (address < 0 ∨ address + size > z.HEAP_SIZE) →
      (∀ j, address ≤ j → j < address + size → (free_heap z c address size).free_blocks j = 1) ∧
      (∀ j, ¬ (address ≤ j ∧ j < address + size) →
        (free_heap z c address size).free_blocks j = c.free_blocks j)) ∧
    (free_heap z c address size).heap_pointer = c.heap_pointer := by
  refine ⟨?_, ?_, ?_⟩
  · intro h
    unfold free_heap
    split
    · rename_i hg
      funext j
      have hw : wrap32 (address + size) ≤ address := by
        unfold wrap32 at hg ⊢
        omega
      have hj : ¬ (address ≤ j ∧ j < wrap32 (address + size)) := by omega
      simp [print, set_range, hj]
    · rfl
  · intro h
    have hw : wrap32 (address + size) = address + size :=
      wrap32_of_int_range _ (by omega) (by omega)
    have hg : address ≥ 0 ∧ wrap32 (address + size) ≤ z.HEAP_SIZE := by
      rw [hw]; omega
    unfold free_heap
    rw [if_pos hg, hw]
    constructor
    · intro j h1 h2
      simp [print, set_range, h1, h2]
    · intro j hj
      simp [print, set_range, hj]
  · unfold free_heap
    split <;> rfl

/-- Claim C10 at a concrete input: `free_heap(5, 10)` on the freshly initialised machine of
`cocomp.c`. -/
theorem free_heap_range_check_witness :
    (((5 : Int) < 0 ∨ (5 : Int) + 10 > cocomp_c.HEAP_SIZE) →
      (free_heap cocomp_c (initialize_cocomp blank) 5 10).free_blocks =
        (initialize_cocomp blank).free_blocks) ∧
    (¬ ((5 : Int) < 0 ∨ (5 : Int) + 10 > cocomp_c.HEAP_SIZE) →
      (∀ j, 5 ≤ j → j < 5 + 10 →
        (free_heap cocomp_c (initialize_cocomp blank) 5 10).free_blocks j = 1) ∧
      (∀ j, ¬ (5 ≤ j ∧ j < 5 + 10) →
        (free_heap cocomp_c (initialize_cocomp blank) 5 10).free_blocks j =
          (initialize_cocomp blank).free_blocks j)) ∧
    (free_heap cocomp_c (initialize_cocomp blank) 5 10).heap_pointer =
      (initialize_cocomp blank).heap_pointer :=
  free_heap_range_check cocomp_c (initialize_cocomp blank) 5 10 (by decide) (by decide)
    (by decide) (by decide) (by decide)

/-! ## The page table of `cocomp.c` -/

theorem evict_first_spec (t : Int → Byte) :
    ∀ (n : Nat) (i : Int),
      (∃ r, i ≤ r ∧ r < i + n ∧ t r ≠ INVALID_PAGE ∧
          (∀ k, i ≤ k → k < r → t k = INVALID_PAGE) ∧
          evict_first t n i = fun j => if j = r then INVALID_PAGE else t j) ∨
      ((∀ k, i ≤ k → k < i + n → t k = INVALID_PAGE) ∧ evict_first t n i = t) := by
  intro n
  induction n with
  | zero =>
    intro i
    right
    exact ⟨fun k h1 h2 => by omega, rfl⟩
  | succ n ih =>
    intro i
    unfold evict_first
    by_cases h : t i ≠ INVALID_PAGE
    · left
      rw [if_pos h]
      exact ⟨i, by omega, by omega, h, fun k h1 h2 => by omega, rfl⟩
    · rw [if_neg h]
      have hi : t i = INVALID_PAGE := by
        by_contra h'
        exact h h'
      rcases ih (i + 1) with ⟨r, h1, h2, h3, h4, h5⟩ | ⟨h1, h2⟩
      · left
        refine ⟨r, by omega, by omega, h3, ?_, h5⟩
        intro k hk1 hk2
        by_cases hki : k = i
        · rw [hki]; exact hi
        · exact h4 k (by omega) hk2
      · right
        refine ⟨?_, h2⟩
        intro k hk1 hk2
        by_cases hki : k = i
        · rw [hki]; exact hi
        · exact h1 k (by omega) (by omega)

theorem page_of_cocomp_c (address : Int) (h0 : 0 ≤ address) :
    page_of cocomp_c address = address / 64 :=
  Int.tdiv_eq_ediv h0 (by decide)

theorem num_pages_cocomp_c : NUM_PAGES cocomp_c = 16 := by decide

theorem to_byte_val (x : Int) (h0 : 0 ≤ x) (h1 : x < 256) : ((to_byte x).val : Int) = x := by
  simp only [to_byte, byte_of]
  omega

/-- Claim C11. In `cocomp.c`, for an address in `[0, MEMORY_SIZE)` the page is
`address / PAGE_SIZE`. When that page is not resident, `simulate_page_fault` returns with
`page_table[page] = page`, with the lowest-index entry that was resident (if any) made
`INVALID_PAGE`, and with every other entry as before. When the page is resident the call changes
nothing. -/
theorem page_fault_effect (c : Cocomp) (address : Int) (h0 : 0 ≤ address)
    (h1 : address < cocomp_c.MEMORY_SIZE) :
    page_of cocomp_c address = address / cocomp_c.PAGE_SIZE ∧
    (c.page_table (page_of cocomp_c address) = INVALID_PAGE →
      ∃ c1, simulate_page_fault cocomp_c c address = some c1 ∧
        ((c1.page_table (page_of cocomp_c address)).val : Int) = page_of cocomp_c address ∧
        (∀ i, first_resident cocomp_c c.page_table i → c1.page_table i = INVALID_PAGE) ∧
        (∀ j, j ≠ page_of cocomp_c address → ¬ first_resident cocomp_c c.page_table j →
          c1.page_table j = c.page_table j)) ∧
    (c.page_table (page_of cocomp_c address) ≠ INVALID_PAGE →
      simulate_page_fault cocomp_c c address = some c) := by
  have hp := page_of_cocomp_c address h0
  have hN : address < 1024 := h1
  have hrange : 0 ≤ page_of cocomp_c address ∧ page_of cocomp_c address < NUM_PAGES cocomp_c := by
    rw [hp, num_pages_cocomp_c]; omega
  refine ⟨hp, ?_, ?_⟩
  · intro hinv
    have hsim : simulate_page_fault cocomp_c c address =
        some { print c (Msg.page_fault address) with
          page_table := fun j =>
            if j = page_of cocomp_c address then to_byte (page_of cocomp_c address)
            else evict_first c.page_table (NUM_PAGES cocomp_c).toNat 0 j } := by
      simp only [simulate_page_fault, if_pos hrange, if_pos hinv]
    refine ⟨_, hsim, ?_, ?_, ?_⟩
    · simp only [print, if_true]
      exact to_byte_val _ hrange.1 (by rw [hp]; omega)
    · intro i hi
      obtain ⟨hi0, hi1, hi2, hi3⟩ := hi
      have hne : i ≠ page_of cocomp_c address := by
        intro h; rw [h] at hi2; exact hi2 hinv
      simp only [print, if_neg hne]
      rcases evict_first_spec c.page_table (NUM_PAGES cocomp_c).toNat 0 with
        ⟨r, hr1, hr2, hr3, hr4, hr5⟩ | ⟨hnone, _⟩
      · have hri : r = i := by
          by_contra hne2
          rcases lt_or_gt_of_ne hne2 with hlt | hgt
          · exact hr3 (hi3 r hr1 hlt)
          · exact hi2 (hr4 i hi0 hgt)
        rw [hr5, hri]
        simp
      · rw [num_pages_cocomp_c] at hnone hi1
        exact absurd (hnone i (by omega) (by simpa using hi1)) hi2
    · intro j hj hnot
      simp only [print, if_neg hj]
      rcases evict_first_spec c.page_table (NUM_PAGES cocomp_c).toNat 0 with
        ⟨r, hr1, hr2, hr3, hr4, hr5⟩ | ⟨_, hsame⟩
      · have hjr : j ≠ r := by
          intro h
          apply hnot
          rw [h]
          refine ⟨hr1, ?_, hr3, fun k hk1 hk2 => hr4 k hk1 hk2⟩
          rw [num_pages_cocomp_c] at hr2 ⊢
          simpa using hr2
        rw [hr5]
        simp [hjr]
      · rw [hsame]
  · intro hres
    simp only [simulate_page_fault, if_pos hrange, if_neg hres]

/-- Claim C11 at a concrete input: address 128 (page 2) on the freshly initialised machine of
`cocomp.c`. -/
theorem page_fault_effect_witness :
    page_of cocomp_c 128 = 128 / cocomp_c.PAGE_SIZE ∧
    ((initialize_cocomp blank).page_table (page_of cocomp_c 128) = INVALID_PAGE →
      ∃ c1, simulate_page_fault cocomp_c (initialize_cocomp blank) 128 = some c1 ∧
        ((c1.page_table (page_of cocomp_c 128)).val : Int) = page_of cocomp_c 128 ∧
        (∀ i, first_resident cocomp_c (initialize_cocomp blank).page_table i →
          c1.page_table i = INVALID_PAGE) ∧
        (∀ j, j ≠ page_of cocomp_c 128 →
          ¬ first_resident cocomp_c (initialize_cocomp blank).page_table j →
          c1.page_table j = (initialize_cocomp blank).page_table j)) ∧
    ((initialize_cocomp blank).page_table (page_of cocomp_c 128) ≠ INVALID_PAGE →
      simulate_page_fault cocomp_c (initialize_cocomp blank) 128 =
        some (initialize_cocomp blank)) :=
  page_fault_effect (initialize_cocomp blank) 128 (by decide) (by decide)

/-- Claim C12 fails as stated. With page 0 alone resident, a fault at address 128 (page 2) changes
two entries of the page table: entry 0 becomes `INVALID_PAGE` and entry 2 becomes 2; so no single
index accounts for every change. -/
theorem page_fault_changes_two_entries :
    (page0_resident.page_table 0, page0_resident.page_table 2) = (0, INVALID_PAGE) ∧
    (simulate_page_fault cocomp_c page0_resident 128).map
        (fun c => (c.page_table 0, c.page_table 2)) = some (INVALID_PAGE, 2) ∧
    ¬ ∃ c1 i, simulate_page_fault cocomp_c page0_resident 128 = some c1 ∧
      ∀ j, j ≠ i → c1.page_table j = page0_resident.page_table j := by
  refine ⟨by decide, by decide, ?_⟩
  rintro ⟨c1, i, hsim, hsame⟩
  have h : (simulate_page_fault cocomp_c page0_resident 128).map
      (fun c => (c.page_table 0, c.page_table 2)) = some (INVALID_PAGE, 2) := by decide
  rw [hsim] at h
  simp only [Option.map, Option.some.injEq, Prod.mk.injEq] at h
  by_cases hi : i = 0
  · have h2 := hsame 2 (by omega)
    rw [h.2] at h2
    exact absurd h2 (by decide)
  · have h0 := hsame 0 (fun h => hi h.symm)
    rw [h.1] at h0
    exact absurd h0 (by decide)

/-- Claim C12 as amended. For an address in `[0, MEMORY_SIZE)`, one call of `simulate_page_fault`
of `cocomp.c` changes at most two entries of the page table: the entry of the faulting page and at
most one other entry `i`, and if that other entry changes it becomes `INVALID_PAGE`. -/
theorem page_fault_changes_at_most_two (c : Cocomp) (address : Int) (h0 : 0 ≤ address)
    (h1 : address < cocomp_c.MEMORY_SIZE) :
    ∃ c1 i, simulate_page_fault cocomp_c c address = some c1 ∧
      (∀ j, j ≠ i → j ≠ page_of cocomp_c address → c1.page_table j = c.page_table j) ∧
      (i ≠ page_of cocomp_c address → c1.page_table i ≠ c.page_table i →
        c1.page_table i = INVALID_PAGE) := by
  have hp := page_of_cocomp_c address h0
  have hN : address < 1024 := h1
  have hrange : 0 ≤ page_of cocomp_c address ∧ page_of cocomp_c address < NUM_PAGES cocomp_c := by
    rw [hp, num_pages_cocomp_c]; omega
  by_cases hinv : c.page_table (page_of cocomp_c address) = INVALID_PAGE
  · have hsim : simulate_page_fault cocomp_c c address =
        some { print c (Msg.page_fault address) with
          page_table := fun j =>
            if j = page_of cocomp_c address then to_byte (page_of cocomp_c address)
            else evict_first c.page_table (NUM_PAGES cocomp_c).toNat 0 j } := by
      simp only [simulate_page_fault, if_pos hrange, if_pos hinv]
    rcases evict_first_spec c.page_table (NUM_PAGES cocomp_c).toNat 0 with
      ⟨r, _, _, _, _, hr5⟩ | ⟨_, hsame⟩
    · refine ⟨_, r, hsim, ?_, ?_⟩
      · intro j hj1 hj2
        simp only [print, if_neg hj2, hr5, if_neg hj1]
      · intro hr _
        simp only [print, if_neg hr, hr5, if_true]
    · refine ⟨_, 0, hsim, ?_, ?_⟩
      · intro j _ hj2
        simp only [print, if_neg hj2, hsame]
      · intro hr hne
        simp only [print, if_neg hr, hsame] at hne
        exact absurd rfl hne
  · refine ⟨c, 0, by simp only [simulate_page_fault, if_pos hrange, if_neg hinv], ?_, ?_⟩
    · intro j _ _; rfl
    · intro _ hne; exact absurd rfl hne

/-- Claim C12 as amended, at a concrete input: a fault at address 128 with page 0 resident. -/
theorem page_fault_changes_at_most_two_witness :
    ∃ c1 i, simulate_page_fault cocomp_c page0_resident 128 = some c1 ∧
      (∀ j, j ≠ i → j ≠ page_of cocomp_c 128 →
        c1.page_table j = page0_resident.page_table j) ∧
      (i ≠ page_of cocomp_c 128 → c1.page_table i ≠ page0_resident.page_table i →
        c1.page_table i = INVALID_PAGE) :=
  page_fault_changes_at_most_two page0_resident 128 (by decide) (by decide)

/-! ## The other opcodes (`cocomp2.c`) -/

theorem in_arena (c : Cocomp) (h1 : c.instruction_pointer + 1 ≤ 4096) :
    c.instruction_pointer < cocomp2_c.MEMORY_SIZE := by
  simp only [cocomp2_c]; omega

theorem dispatch_store_invalid (c : Cocomp) (hop : c.memory c.instruction_pointer = 0x03)
    (h0 : 0 ≤ c.instruction_pointer) (h1 : c.instruction_pointer + 5 ≤ 4096)
    (ha : read_int c.memory (c.instruction_pointer + 1) < 0 ∨
      4096 ≤ read_int c.memory (c.instruction_pointer + 1)) :
    dispatch cocomp2_c c = some ({ print c (Msg.invalid_memory_address
        (read_int c.memory (c.instruction_pointer + 1))) with
      instruction_pointer := c.instruction_pointer + 5 }, true) := by
  have hw := wrap32_ip_succ c.instruction_pointer h0 (by omega) 4 (by omega) (by omega)
  rw [dispatch_fetch cocomp2_c c h0 (in_arena c (by omega)), hop, execute_case_store]
  have h2 : 0 ≤ c.instruction_pointer + 1 ∧
      c.instruction_pointer + 1 + 4 ≤ cocomp2_c.MEMORY_SIZE := by
    simp only [cocomp2_c]; omega
  have h3 : ¬ (read_int c.memory (c.instruction_pointer + 1) ≥ 0 ∧
      read_int c.memory (c.instruction_pointer + 1) < cocomp2_c.MEMORY_SIZE) := by
    simp only [cocomp2_c]; omega
  simp only [load_int, if_pos h2, Option.bind, if_neg h3, Option.map, print]
  rw [hw]
  norm_num

theorem execute_case_jump (z : Sizes) (c : Cocomp) :
    execute_case z c 0x06 =
      (load_int z c (c.instruction_pointer + 1)).map fun target =>
        ({ c with instruction_pointer := wrap32 (target - 1) }, true) := by
  simp [execute_case]

theorem load_int_inside (c : Cocomp) (a : Int) (h0 : 0 ≤ a) (h1 : a + 4 ≤ 4096) :
    load_int cocomp2_c c a = some (read_int c.memory a) := by
  have h : 0 ≤ a ∧ a + 4 ≤ cocomp2_c.MEMORY_SIZE := ⟨h0, h1⟩
  simp only [load_int, if_pos h]

theorem dispatch_of_case (z : Sizes) (c c1 : Cocomp) (b : Byte) (r : Bool)
    (h0 : 0 ≤ c.instruction_pointer) (h1 : c.instruction_pointer < z.MEMORY_SIZE)
    (hb : c.memory c.instruction_pointer = b) (hc : execute_case z c b = some (c1, r)) :
    dispatch z c =
      some ({ c1 with instruction_pointer := wrap32 (c1.instruction_pointer + 1) }, r) := by
  rw [dispatch_fetch z c h0 h1, hb, hc]
  rfl

theorem set_instruction_pointer_twice (c : Cocomp) (a b : Int) (r : Bool)
    (h : wrap32 (a + 1) = b) :
    (some (({ ({ c with instruction_pointer := a } : Cocomp) with
      instruction_pointer :=
        wrap32 (({ c with instruction_pointer := a } : Cocomp).instruction_pointer + 1) } : Cocomp), r)
      : Option (Cocomp × Bool)) =
    some ({ c with instruction_pointer := b }, r) := by
  subst h
  rfl

theorem execute_case_jump_inside (c : Cocomp) (t : Int)
    (h0 : 0 ≤ c.instruction_pointer) (h1 : c.instruction_pointer + 5 ≤ 4096)
    (ht : read_int c.memory (c.instruction_pointer + 1) = t) :
    execute_case cocomp2_c c 0x06 =
      some ({ c with instruction_pointer := wrap32 (t - 1) }, true) := by
  rw [execute_case_jump, load_int_inside c (c.instruction_pointer + 1) (by omega) (by omega), ht]
  rfl

theorem dispatch_jump (c : Cocomp) (hop : c.memory c.instruction_pointer = 0x06)
    (h0 : 0 ≤ c.instruction_pointer) (h1 : c.instruction_pointer + 5 ≤ 4096)
    (ht0 : -2147483648 < read_int c.memory (c.instruction_pointer + 1))
    (ht1 : read_int c.memory (c.instruction_pointer + 1) < 2147483648) :
    dispatch cocomp2_c c = some ({ c with
      instruction_pointer := read_int c.memory (c.instruction_pointer + 1) }, true) := by
  have hd := dispatch_of_case cocomp2_c c _ _ true h0 (in_arena c (by omega)) hop
    (execute_case_jump_inside c _ h0 h1 rfl)
  revert hd ht0 ht1
  generalize read_int c.memory (c.instruction_pointer + 1) = t
  intro ht0 ht1 hd
  have hw1 : wrap32 (t - 1) = t - 1 := wrap32_of_int_range _ (by omega) (by omega)
  have hw2 : wrap32 (wrap32 (t - 1) + 1) = t := by
    rw [hw1, wrap32_of_int_range] <;> omega
  revert hd hw2
  generalize wrap32 (t - 1) = a
  intro hd hw2
  rw [hd]
  exact set_instruction_pointer_twice c a t true hw2

theorem handle_interrupt_fields (c : Cocomp) (code : Int) :
    (handle_interrupt c code).instruction_pointer = c.instruction_pointer ∧
    (handle_interrupt c code).memory = c.memory ∧
    (handle_interrupt c code).accumulator = c.accumulator ∧
    (handle_interrupt c code).stack_pointer = c.stack_pointer := by
  unfold handle_interrupt
  split <;> exact ⟨rfl, rfl, rfl, rfl⟩

theorem execute_case_syscall (z : Sizes) (c : Cocomp) :
    execute_case z c 0x0C =
      (load_byte z c (c.instruction_pointer + 1)).map fun code =>
        (handle_interrupt { c with instruction_pointer := c.instruction_pointer + 1 }
          (code.val : Int), true) := by
  simp [execute_case]

theorem execute_case_bitwise (z : Sizes) (c : Cocomp) (b : Byte)
    (hop : b = 0x0F ∨ b = 0x10 ∨ b = 0x11 ∨ b = 0x12 ∨ b = 0x13) :
    ∃ f : Int → Int → Int, execute_case z c b =
      (load_int z c (c.instruction_pointer + 1)).map fun value =>
        ({ c with accumulator := f64_of_int (f (f64_to_int c.accumulator) value),
                  instruction_pointer := c.instruction_pointer + 4 }, true) := by
  rcases hop with h | h | h | h | h
  · exact ⟨int_and, by rw [h]; simp [execute_case]⟩
  · exact ⟨int_or, by rw [h]; simp [execute_case]⟩
  · exact ⟨int_xor, by rw [h]; simp [execute_case]⟩
  · exact ⟨int_shl, by rw [h]; simp [execute_case]⟩
  · exact ⟨int_shr, by rw [h]; simp [execute_case]⟩

/-- Claim C13. One loop iteration on STORE (`0x03`) in `cocomp2.c`, with the opcode and its
four-byte operand `A` inside the arena. If `0 <= A <= MEMORY_SIZE - 8`, the eight bytes at `A`
become the bytes of the accumulator and every other memory byte is unchanged. If `A < 0` or
`A >= MEMORY_SIZE`, the invalid-address line is printed and memory is unchanged. In both cases
the accumulator and the stack pointer are unchanged and `running` stays 1. -/
theorem store_dispatch (c : Cocomp) (A : Int) (hop : c.memory c.instruction_pointer = 0x03)
    (h0 : 0 ≤ c.instruction_pointer) (h1 : c.instruction_pointer + 5 ≤ cocomp2_c.MEMORY_SIZE)
    (hA : read_int c.memory (c.instruction_pointer + 1) = A) :
    (0 ≤ A ∧ A ≤ cocomp2_c.MEMORY_SIZE - 8 →
      ∃ c1, dispatch cocomp2_c c = some (c1, true) ∧
        bytes8 c1.memory A = double_bytes c.accumulator ∧
        (∀ i, i < A ∨ A + 8 ≤ i → c1.memory i = c.memory i) ∧
        c1.accumulator = c.accumulator ∧ c1.stack_pointer = c.stack_pointer) ∧
    (A < 0 ∨ A ≥ cocomp2_c.MEMORY_SIZE →
      ∃ c1, dispatch cocomp2_c c = some (c1, true) ∧ c1.memory = c.memory ∧
        c1.accumulator = c.accumulator ∧ c1.stack_pointer = c.stack_pointer ∧
        c1.stdout = c.stdout ++ [Msg.invalid_memory_address A]) := by
  have h1' : c.instruction_pointer + 5 ≤ 4096 := h1
  constructor
  · rintro ⟨ha0, ha1⟩
    have ha1' : A + 8 ≤ 4096 := by
      have : A ≤ 4096 - 8 := ha1
      omega
    have hd := dispatch_store c hop h0 h1' (by rw [hA]; exact ha0) (by rw [hA]; exact ha1')
    rw [hA] at hd
    exact ⟨_, hd, bytes8_write_double _ _ _, fun i hi => write_double_outside _ _ _ i hi,
      rfl, rfl⟩
  · intro ha
    have ha' : A < 0 ∨ 4096 ≤ A := ha
    have hd := dispatch_store_invalid c hop h0 h1' (by rw [hA]; exact ha')
    rw [hA] at hd
    exact ⟨_, hd, rfl, rfl, rfl, rfl⟩

/-- Claim C13 at a concrete input: `STORE 100` at address 0 with the accumulator holding
`3.14`. -/
theorem store_dispatch_witness :
    ∃ c1, dispatch cocomp2_c store_example = some (c1, true) ∧
      bytes8 c1.memory 100 = double_bytes store_example.accumulator ∧
      (∀ i, i < 100 ∨ 100 + 8 ≤ i → c1.memory i = store_example.memory i) ∧
      c1.accumulator = store_example.accumulator ∧
      c1.stack_pointer = store_example.stack_pointer :=
  (store_dispatch store_example 100 (by decide) (by decide) (by decide) (by decide)).1
    (by decide)

/-- Claim C14. One loop iteration on JUMP (`0x06`) in `cocomp2.c`, with the opcode and its
four-byte operand `t` inside the arena and `0 <= t < MEMORY_SIZE`: the `switch` sets the
instruction pointer to `t - 1`, the increment at the end of the iteration brings it to `t`, so the
next fetch reads `memory[t]`; memory, accumulator and stack pointer are unchanged and `running`
stays 1. -/
theorem jump_dispatch (c : Cocomp) (t : Int) (hop : c.memory c.instruction_pointer = 0x06)
    (h0 : 0 ≤ c.instruction_pointer) (h1 : c.instruction_pointer + 5 ≤ cocomp2_c.MEMORY_SIZE)
    (ht : read_int c.memory (c.instruction_pointer + 1) = t)
    (ht0 : 0 ≤ t) (ht1 : t < cocomp2_c.MEMORY_SIZE) :
    (execute_case cocomp2_c c (c.memory c.instruction_pointer)).map
        (fun r => r.1.instruction_pointer) = some (t - 1) ∧
    ∃ c1, dispatch cocomp2_c c = some (c1, true) ∧ c1.instruction_pointer = t ∧
      load_byte cocomp2_c c1 c1.instruction_pointer = some (c.memory t) ∧
      c1.memory = c.memory ∧ c1.accumulator = c.accumulator ∧
      c1.stack_pointer = c.stack_pointer := by
  have h1' : c.instruction_pointer + 5 ≤ 4096 := h1
  have ht1' : t < 4096 := ht1
  have hw1 : wrap32 (t - 1) = t - 1 := wrap32_of_int_range _ (by omega) (by omega)
  constructor
  · rw [hop, execute_case_jump_inside c t h0 h1' ht]
    exact congrArg some hw1
  · have hd := dispatch_jump c hop h0 h1' (by rw [ht]; omega) (by rw [ht]; omega)
    rw [ht] at hd
    refine ⟨_, hd, rfl, ?_, rfl, rfl, rfl⟩
    have hin : 0 ≤ t ∧ t < cocomp2_c.MEMORY_SIZE := ⟨ht0, ht1⟩
    simp only [load_byte, if_pos hin]

/-- Claim C14 at a concrete input: `JUMP 16` at address 0. -/
theorem jump_dispatch_witness :
    (execute_case cocomp2_c (loaded [0x06, 0x10, 0x00, 0x00, 0x00] 3584)
        ((loaded [0x06, 0x10, 0x00, 0x00, 0x00] 3584).memory
          (loaded [0x06, 0x10, 0x00, 0x00, 0x00] 3584).instruction_pointer)).map
        (fun r => r.1.instruction_pointer) = some (16 - 1) ∧
    ∃ c1, dispatch cocomp2_c (loaded [0x06, 0x10, 0x00, 0x00, 0x00] 3584) = some (c1, true) ∧
      c1.instruction_pointer = 16 ∧
      load_byte cocomp2_c c1 c1.instruction_pointer =
        some ((loaded [0x06, 0x10, 0x00, 0x00, 0x00] 3584).memory 16) ∧
      c1.memory = (loaded [0x06, 0x10, 0x00, 0x00, 0x00] 3584).memory ∧
      c1.accumulator = (loaded [0x06, 0x10, 0x00, 0x00, 0x00] 3584).accumulator ∧
      c1.stack_pointer = (loaded [0x06, 0x10, 0x00, 0x00, 0x00] 3584).stack_pointer :=
  jump_dispatch (loaded [0x06, 0x10, 0x00, 0x00, 0x00] 3584) 16 (by decide) (by decide)
    (by decide) (by decide) (by decide) (by decide)

/-! ## CALL and RETURN, NOP, and a negative instruction pointer -/

/-- Claim C15 (the code at the failing input). `CALL 3` at address 0, `RETURN` at address 3,
stack pointer 4000. The CALL pushes `instruction_pointer + 1 = 1` and the next fetch is at 3 with
the stack pointer at 3999; the RETURN pops `1.0`, sets the instruction pointer to `1 - 1`, and the
increment of the loop brings it to 1, the address of the operand byte of the CALL, not to 2. The
stack pointer is back at 4000. The same holds for the opcode pair `0x0D`, `0x0E`. -/
theorem call_return_resumes_at_operand :
    (dispatch cocomp2_c (call_return 0x07 0x08)).map registers = some (3, 3999, true) ∧
    ((dispatch cocomp2_c (call_return 0x07 0x08)).bind fun r => dispatch cocomp2_c r.1).map
      registers = some (1, 4000, true) ∧
    (dispatch cocomp2_c (call_return 0x0D 0x0E)).map registers = some (3, 3999, true) ∧
    ((dispatch cocomp2_c (call_return 0x0D 0x0E)).bind fun r => dispatch cocomp2_c r.1).map
      registers = some (1, 4000, true) := by
  decide

/-- Claim C17 (the code at the failing input). `NOP` at address 0 and `END` at address 1 on the
initialised machine. The loop iteration on the NOP leaves the instruction pointer at 2: the case
increments it and the loop increments it again, so the END at address 1 is never fetched. The run
goes on at address 2, where the zero byte is reported as an unknown instruction. After the iteration
memory, accumulator and stack pointer are as before. -/
theorem nop_skips_next_byte :
    (dispatch cocomp2_c nop_end).map registers = some (2, 3584, true) ∧
    (dispatch cocomp2_c nop_end).map
      (fun r => (r.1.memory 0, r.1.memory 1, r.1.memory 2, r.1.accumulator)) =
        some (0x09, 0xFF, 0x00, f64 0) ∧
    (execute_program cocomp2_c 2 nop_end).outcome =
      some (false, 3,
        [Msg.neural_network_initialized, Msg.unknown_instruction 0x00 2]) := by
  decide

theorem execute_program_beyond_arena (z : Sizes) (fuel : Nat) (c : Cocomp)
    (h : z.MEMORY_SIZE ≤ c.instruction_pointer) :
    execute_program z fuel c = Run.returned true c := by
  have hn : ¬ c.instruction_pointer < z.MEMORY_SIZE := by omega
  cases fuel <;> simp [execute_program, execute_loop, hn]

/-- Claim C18 (the code at the failing input). `JUMP -5` at address 0 on the initialised machine.
The loop iteration leaves the instruction pointer at -5 with `running = 1`; the loop condition
`instruction_pointer < MEMORY_SIZE` holds for -5, so the next iteration fetches `memory[-5]`, a byte
outside the array. The same happens on any state whose instruction pointer is -1. -/
theorem negative_instruction_pointer_is_fetched :
    (dispatch cocomp2_c jump_back).map registers = some (-5, 3584, true) ∧
    (-5 : Int) < cocomp2_c.MEMORY_SIZE ∧
    (load_byte cocomp2_c jump_back (-5)).isNone = true ∧
    (execute_program cocomp2_c 2 jump_back).is_undefined = true ∧
    (execute_program cocomp2_c 1
      { loaded [] 3584 with instruction_pointer := -1 }).is_undefined = true := by
  decide

/-! ## The stack calls with their access inside the arena (`cocomp2.c`) -/

theorem push_stack_inside (c : Cocomp) (v : Double)
    (h : c.stack_pointer ≤ 4096 - 512 ∨ c.stack_pointer + 7 ≤ 4096) :
    ∃ c1, push_stack cocomp2_c c v = some c1 := by
  by_cases ho : c.stack_pointer ≤ cocomp2_c.MEMORY_SIZE - cocomp2_c.STACK_SIZE
  · exact ⟨_, push_stack_overflow cocomp2_c c v ho⟩
  · have ho' : ¬ c.stack_pointer ≤ 4096 - 512 := ho
    have hin : 0 ≤ c.stack_pointer - 1 ∧ c.stack_pointer - 1 + 8 ≤ cocomp2_c.MEMORY_SIZE := by
      simp only [cocomp2_c]; omega
    simp only [push_stack, if_neg ho, store_double, if_pos hin]
    exact ⟨_, rfl⟩

theorem pop_stack_defined (c : Cocomp)
    (h : c.stack_pointer ≥ 4096 ∨ (0 ≤ c.stack_pointer ∧ c.stack_pointer + 8 ≤ 4096)) :
    ∃ r, pop_stack cocomp2_c c = some r := by
  by_cases hu : c.stack_pointer ≥ cocomp2_c.MEMORY_SIZE
  · simp only [pop_stack, if_pos hu]
    exact ⟨_, rfl⟩
  · have hu' : ¬ c.stack_pointer ≥ 4096 := hu
    exact ⟨_, pop_stack_inside cocomp2_c c (by omega) (by simp only [cocomp2_c]; omega)⟩

/-! ## The mailbox and the dynamic code area -/

/-- Claim C19. For a process id `p` with `0 <= p < 10` (`MAX_PROCESSES`) and any message `m`:
after `ipc_send(p, m)`, `ipc_receive(p)` returns `m`; a second `ipc_receive(p)` returns `m` again,
since `ipc_receive` leaves the mailbox as it is; and `ipc_send` changed no slot other than `p`. -/
theorem ipc_send_then_receive (z : Sizes) (c : Cocomp) (p m : Int) (h0 : 0 ≤ p)
    (h1 : p < z.MAX_PROCESSES) :
    (ipc_receive z (ipc_send z c p m) p).1 = m ∧
    (ipc_receive z (ipc_receive z (ipc_send z c p m) p).2 p).1 = m ∧
    (ipc_receive z (ipc_send z c p m) p).2.inter_process_comm =
      (ipc_send z c p m).inter_process_comm ∧
    (∀ q, q ≠ p → (ipc_send z c p m).inter_process_comm q = c.inter_process_comm q) := by
  have hp : ¬ (p < 0 ∨ p ≥ z.MAX_PROCESSES) := by omega
  have hs : ipc_send z c p m =
      print { c with inter_process_comm := fun q => if q = p then m
                                                      else c.inter_process_comm q }
        (Msg.ipc_sent p m) := by
    simp only [ipc_send, if_neg hp]
  have hr : ∀ c1 : Cocomp, ipc_receive z c1 p =
      (c1.inter_process_comm p, print c1 (Msg.ipc_received p (c1.inter_process_comm p))) := by
    intro c1
    simp only [ipc_receive, if_neg hp]
  rw [hr, hr, hs]
  refine ⟨?_, ?_, rfl, ?_⟩
  · simp only [print, if_true]
  · simp only [print, if_true]
  · intro q hq
    simp only [print, if_neg hq]

/-- Claim C19 at a concrete input: the calls `ipc_send(1, 42)` and `ipc_receive(1)` of `main` in
`cocomp2.c`, on the initialised machine. -/
theorem ipc_send_then_receive_witness :
    (ipc_receive cocomp2_c (ipc_send cocomp2_c (initialize_cocomp2 blank) 1 42) 1).1 = 42 ∧
    (ipc_receive cocomp2_c
      (ipc_receive cocomp2_c (ipc_send cocomp2_c (initialize_cocomp2 blank) 1 42) 1).2 1).1 =
        42 ∧
    (ipc_receive cocomp2_c
      (ipc_send cocomp2_c (initialize_cocomp2 blank) 1 42) 1).2.inter_process_comm =
      (ipc_send cocomp2_c (initialize_cocomp2 blank) 1 42).inter_process_comm ∧
    (∀ q, q ≠ 1 → (ipc_send cocomp2_c (initialize_cocomp2 blank) 1 42).inter_process_comm q =
      (initialize_cocomp2 blank).inter_process_comm q) :=
  ipc_send_then_receive cocomp2_c (initialize_cocomp2 blank) 1 42 (by decide) (by decide)

/-- Claim C20. When `size` exceeds the capacity of `dynamic_code_area`, `load_dynamic_code`
only prints its rejection line and returns, in `cocomp.c` and in `cocomp2.c` (where nothing is
loaded or run either): the staged code, the arena, the instruction pointer, the accumulator and
the stack pointer are what they were. -/
theorem oversized_dynamic_code_rejected (z : Sizes) (fuel : Nat) (c : Cocomp) (code : List Byte)
    (size : Int) (h : size > z.DYNAMIC_CODE_SIZE) :
    ∃ c1, load_dynamic_code z c code size = some c1 ∧
      load_dynamic_code2 z fuel c code size = Loaded.rejected c1 ∧
      c1.stdout = c.stdout ++ [Msg.dynamic_code_too_large] ∧
      c1.dynamic_code_area = c.dynamic_code_area ∧ c1.memory = c.memory ∧
      c1.instruction_pointer = c.instruction_pointer ∧ c1.accumulator = c.accumulator ∧
      c1.stack_pointer = c.stack_pointer := by
  have hs : size < 0 ∨ size > z.DYNAMIC_CODE_SIZE := Or.inr h
  refine ⟨print c Msg.dynamic_code_too_large, ?_, ?_, rfl, rfl, rfl, rfl, rfl, rfl⟩
  · simp only [load_dynamic_code, if_pos hs]
  · simp only [load_dynamic_code2, if_pos hs]

/-- Claim C20 at a concrete input: a payload of 1025 bytes on the initialised machine of
`cocomp2.c`, whose staging area holds 1024 bytes. -/
theorem oversized_dynamic_code_rejected_witness :
    ∃ c1, load_dynamic_code cocomp2_c (initialize_cocomp2 blank) (List.replicate 1025 0x09)
        1025 = some c1 ∧
      load_dynamic_code2 cocomp2_c 0 (initialize_cocomp2 blank) (List.replicate 1025 0x09)
        1025 = Loaded.rejected c1 ∧
      c1.stdout = (initialize_cocomp2 blank).stdout ++ [Msg.dynamic_code_too_large] ∧
      c1.dynamic_code_area = (initialize_cocomp2 blank).dynamic_code_area ∧
      c1.memory = (initialize_cocomp2 blank).memory ∧
      c1.instruction_pointer = (initialize_cocomp2 blank).instruction_pointer ∧
      c1.accumulator = (initialize_cocomp2 blank).accumulator ∧
      c1.stack_pointer = (initialize_cocomp2 blank).stack_pointer :=
  oversized_dynamic_code_rejected cocomp2_c 0 (initialize_cocomp2 blank)
    (List.replicate 1025 0x09) 1025 (by decide)

/-! ## The stack away from its boundaries -/

theorem push_stack_room (z : Sizes) (c : Cocomp) (v : Double)
    (hz : z.STACK_SIZE ≤ z.MEMORY_SIZE)
    (h0 : z.MEMORY_SIZE - z.STACK_SIZE < c.stack_pointer)
    (h1 : c.stack_pointer + 7 ≤ z.MEMORY_SIZE) :
    push_stack z c v = some { c with
      stack_pointer := c.stack_pointer - 1
      memory := write_double c.memory (c.stack_pointer - 1) v } := by
  have ho : ¬ c.stack_pointer ≤ z.MEMORY_SIZE - z.STACK_SIZE := by omega
  have hin : 0 ≤ c.stack_pointer - 1 ∧ c.stack_pointer - 1 + 8 ≤ z.MEMORY_SIZE := by omega
  simp only [push_stack, if_neg ho, store_double, if_pos hin]

/-- Claim C26. For a state with `MEMORY_SIZE - STACK_SIZE < stack_pointer <= MEMORY_SIZE - 7`
and any value `v`, `push_stack(v)` followed by `pop_stack` returns `v` bit for bit, leaves the
stack pointer at its earlier value, and changes no memory byte outside
`[stack_pointer - 1, stack_pointer + 7)`. The macros satisfy `STACK_SIZE <= MEMORY_SIZE` in both
files. -/
theorem push_then_pop (z : Sizes) (c : Cocomp) (v : Double)
    (hz : z.STACK_SIZE ≤ z.MEMORY_SIZE)
    (h0 : z.MEMORY_SIZE - z.STACK_SIZE < c.stack_pointer)
    (h1 : c.stack_pointer ≤ z.MEMORY_SIZE - 7) :
    ∃ c1 c2, push_stack z c v = some c1 ∧ pop_stack z c1 = some (v, c2) ∧
      c2.stack_pointer = c.stack_pointer ∧
      (∀ i, i < c.stack_pointer - 1 ∨ c.stack_pointer + 7 ≤ i → c2.memory i = c.memory i) := by
  have hp := push_stack_room z c v hz h0 (by omega)
  refine ⟨_, { c with
    stack_pointer := c.stack_pointer - 1 + 1
    memory := write_double c.memory (c.stack_pointer - 1) v }, hp, ?_, ?_, ?_⟩
  · rw [pop_stack_inside z _ (by show 0 ≤ c.stack_pointer - 1; omega)
      (by show c.stack_pointer - 1 + 8 ≤ z.MEMORY_SIZE; omega)]
    show some (read_double (write_double c.memory (c.stack_pointer - 1) v)
      (c.stack_pointer - 1), _) = _
    rw [read_write_double]
  · show c.stack_pointer - 1 + 1 = c.stack_pointer
    omega
  · intro i hi
    exact write_double_outside _ _ _ i (by omega)

/-- Claim C26 at a concrete input: `3.14` pushed and popped with the stack pointer at 4000 in
`cocomp2.c`. -/
theorem push_then_pop_witness :
    ∃ c1 c2, push_stack cocomp2_c (loaded [] 4000) f64_3_14 = some c1 ∧
      pop_stack cocomp2_c c1 = some (f64_3_14, c2) ∧
      c2.stack_pointer = (loaded [] 4000).stack_pointer ∧
      (∀ i, i < (loaded [] 4000).stack_pointer - 1 ∨ (loaded [] 4000).stack_pointer + 7 ≤ i →
        c2.memory i = (loaded [] 4000).memory i) :=
  push_then_pop cocomp2_c (loaded [] 4000) f64_3_14 (by decide) (by decide) (by decide)

theorem set_instruction_pointer_same (c : Cocomp) (t : Int) (h : c.instruction_pointer = t) :
    ({ c with instruction_pointer := t } : Cocomp) = c := by
  subst h
  rfl

theorem read_int_zero (m : Int → Byte) (a : Int) (h0 : m a = 0) (h1 : m (a + 1) = 0)
    (h2 : m (a + 2) = 0) (h3 : m (a + 3) = 0) : read_int m a = 0 := by
  unfold read_int
  rw [h0, h1, h2, h3]
  rfl

/-- Claim C23. With the bytes `06 00 00 00 00` (JUMP to address 0) at address 0 of `cocomp2.c`
and the instruction pointer at 0, a loop iteration leaves `running = 1` and gives back the very
same state: instruction pointer 0 and memory, accumulator and stack pointer unchanged. So for
every bound `n` the loop of `execute_program` has not stopped after `n` iterations and the state
is still the initial one: `execute_program` does not return. -/
theorem jump_to_self_never_halts (c : Cocomp) (hip : c.instruction_pointer = 0)
    (h0 : c.memory 0 = 0x06) (h1 : c.memory 1 = 0x00) (h2 : c.memory 2 = 0x00)
    (h3 : c.memory 3 = 0x00) (h4 : c.memory 4 = 0x00) :
    dispatch cocomp2_c c = some (c, true) ∧
    ∀ n, execute_program cocomp2_c n c = Run.unfinished c ∧
      (execute_program cocomp2_c n c).has_returned = false := by
  have ht : read_int c.memory (c.instruction_pointer + 1) = 0 := by
    rw [hip]
    exact read_int_zero c.memory (0 + 1) h1 h2 h3 h4
  have hd : dispatch cocomp2_c c = some (c, true) := by
    have hj := dispatch_jump c (by rw [hip]; exact h0) (by omega) (by omega)
      (by rw [ht]; decide) (by rw [ht]; decide)
    rw [ht, set_instruction_pointer_same c 0 hip] at hj
    exact hj
  have hlt : c.instruction_pointer < cocomp2_c.MEMORY_SIZE := by
    rw [hip]; decide
  have hrun : ∀ n, execute_program cocomp2_c n c = Run.unfinished c := by
    intro n
    unfold execute_program
    induction n with
    | zero => simp only [execute_loop, hlt, and_self, if_true]
    | succ n ih => rw [execute_loop_step cocomp2_c n c c true hlt hd, ih]
  refine ⟨hd, fun n => ⟨hrun n, ?_⟩⟩
  rw [hrun n]
  rfl

/-- Claim C23 at a concrete input: `JUMP 0` loaded at address 0 of the initialised machine. -/
theorem jump_to_self_never_halts_witness :
    dispatch cocomp2_c jump_self = some (jump_self, true) ∧
    ∀ n, execute_program cocomp2_c n jump_self = Run.unfinished jump_self ∧
      (execute_program cocomp2_c n jump_self).has_returned = false :=
  jump_to_self_never_halts jump_self (by decide) (by decide) (by decide) (by decide)
    (by decide) (by decide)

/-- Claim C24 (the code at the failing input). The program of `main` in `cocomp2.c` on the
initialised machine. The first iteration runs LOAD_FLOAT at offset 0, which takes the eight bytes
at offsets 1 to 8 as its operand and leaves the instruction pointer at 9. The second iteration
fetches the byte `0x00` at offset 9, reports it as an unknown instruction and stops the run with
the instruction pointer at 10. The STORE at offset 13, the SYSCALL at offset 15 and the END at
offset 17 are never fetched, whatever the bound on the iterations. -/
theorem main_program_stops_at_offset_9 :
    (load_program cocomp2_c (initialize_cocomp2 blank) main_program 18).map
      (fun c => (c.memory 0, c.memory 9, c.memory 13, c.memory 15, c.memory 17)) =
        some (0x01, 0x00, 0x03, 0x0C, 0xFF) ∧
    ((load_program cocomp2_c (initialize_cocomp2 blank) main_program 18).bind
      (dispatch cocomp2_c)).map registers = some (9, 3584, true) ∧
    (run_main 2).bind Run.outcome =
      some (false, 10,
        [Msg.neural_network_initialized, Msg.unknown_instruction 0x00 9]) ∧
    (run_main 18).bind Run.outcome =
      some (false, 10,
        [Msg.neural_network_initialized, Msg.unknown_instruction 0x00 9]) := by
  decide

/-- Claim C27 (the code at the failing inputs). `STORE 4089` on the initialised machine of
`cocomp2.c`: the address passes the check `0 <= 4089 < 4096`, and the eight-byte write covers
`memory[4089..4096]`, one byte past the array, so neither the write nor the loop iteration has a
defined result. `push_stack` with the stack pointer at 4096: the overflow check passes
(`4096 > 3584`), the stack pointer becomes 4095 and the eight-byte write covers
`memory[4095..4102]`, seven bytes past the array. With address 4088 and with stack pointer 4089
the writes end at the last byte of the array and are defined. -/
theorem checked_writes_leave_arena :
    read_int store_4089.memory (store_4089.instruction_pointer + 1) = 4089 ∧
    (0 ≤ (4089 : Int) ∧ (4089 : Int) < cocomp2_c.MEMORY_SIZE) ∧
    (store_double cocomp2_c store_4089 4089 store_4089.accumulator).isNone = true ∧
    (dispatch cocomp2_c store_4089).isNone = true ∧
    (store_double cocomp2_c store_4089 4088 store_4089.accumulator).isSome = true ∧
    cocomp2_c.MEMORY_SIZE - cocomp2_c.STACK_SIZE < empty_stack.stack_pointer ∧
    empty_stack.stack_pointer ≤ cocomp2_c.MEMORY_SIZE ∧
    (push_stack cocomp2_c empty_stack f64_3_14).isNone = true ∧
    (push_stack cocomp2_c (loaded [] 4089) f64_3_14).isSome = true := by
  decide

/-! ## Progress of the instruction pointer -/

theorem store_double_fields (z : Sizes) (c c1 : Cocomp) (a : Int) (d : Double)
    (h : store_double z c a d = some c1) :
    c1.instruction_pointer = c.instruction_pointer ∧
    c1.dynamic_code_area = c.dynamic_code_area := by
  unfold store_double at h
  split at h
  · cases h; exact ⟨rfl, rfl⟩
  · cases h

theorem push_stack_fields (z : Sizes) (c c1 : Cocomp) (v : Double)
    (h : push_stack z c v = some c1) :
    c1.instruction_pointer = c.instruction_pointer ∧
    c1.dynamic_code_area = c.dynamic_code_area := by
  unfold push_stack at h
  split at h
  · cases h; exact ⟨rfl, rfl⟩
  · exact store_double_fields z { c with stack_pointer := c.stack_pointer - 1 } c1 _ v h

theorem pop_stack_fields (z : Sizes) (c : Cocomp) (r : Double × Cocomp)
    (h : pop_stack z c = some r) :
    r.2.instruction_pointer = c.instruction_pointer ∧
    r.2.dynamic_code_area = c.dynamic_code_area := by
  unfold pop_stack at h
  split at h
  · cases h; exact ⟨rfl, rfl⟩
  · cases hl : load_double z c c.stack_pointer with
    | none => rw [hl] at h; cases h
    | some v => rw [hl] at h; cases h; exact ⟨rfl, rfl⟩

theorem handle_interrupt_dynamic_code_area (c : Cocomp) (code : Int) :
    (handle_interrupt c code).dynamic_code_area = c.dynamic_code_area := by
  unfold handle_interrupt
  split <;> rfl

theorem execute_case_load_float (z : Sizes) (c : Cocomp) :
    execute_case z c 0x01 =
      (load_double z c (c.instruction_pointer + 1)).map fun v =>
        ({ c with accumulator := v, instruction_pointer := c.instruction_pointer + 8 },
          true) := by
  simp [execute_case]

theorem execute_case_add (z : Sizes) (c : Cocomp) :
    execute_case z c 0x02 =
      (load_double z c (c.instruction_pointer + 1)).map fun v =>
        ({ c with accumulator := f64_add c.accumulator v,
                  instruction_pointer := c.instruction_pointer + 8 }, true) := by
  simp [execute_case]

theorem execute_case_push (z : Sizes) (c : Cocomp) :
    execute_case z c 0x04 = (push_stack z c c.accumulator).map fun c1 => (c1, true) := by
  simp [execute_case]

theorem execute_case_pop (z : Sizes) (c : Cocomp) :
    execute_case z c 0x05 =
      (pop_stack z c).map fun r => ({ r.2 with accumulator := r.1 }, true) := by
  simp [execute_case]

theorem execute_case_call (z : Sizes) (c : Cocomp) (b : Byte) (hb : b = 0x07 ∨ b = 0x0D) :
    execute_case z c b =
      (push_stack z c (f64_of_int (c.instruction_pointer + 1))).bind fun c1 =>
        (load_byte z c1 (c.instruction_pointer + 1)).map fun target =>
          ({ c1 with instruction_pointer := (target.val : Int) - 1 }, true) := by
  rcases hb with h | h <;> rw [h] <;> simp [execute_case]

theorem execute_case_return (z : Sizes) (c : Cocomp) (b : Byte) (hb : b = 0x08 ∨ b = 0x0E) :
    execute_case z c b =
      (pop_stack z c).map fun r =>
        ({ r.2 with instruction_pointer := wrap32 (f64_to_int r.1 - 1) }, true) := by
  rcases hb with h | h <;> rw [h] <;> simp [execute_case]

theorem execute_case_nop (z : Sizes) (c : Cocomp) :
    execute_case z c 0x09 =
      some ({ c with instruction_pointer := c.instruction_pointer + 1 }, true) := by
  simp [execute_case]

theorem execute_case_sub (z : Sizes) (c : Cocomp) :
    execute_case z c 0x0A =
      (load_double z c (c.instruction_pointer + 1)).map fun v =>
        ({ c with accumulator := f64_sub c.accumulator v,
                  instruction_pointer := c.instruction_pointer + 8 }, true) := by
  simp [execute_case]

theorem execute_case_compare (z : Sizes) (c : Cocomp) :
    execute_case z c 0x0B =
      (load_double z c (c.instruction_pointer + 1)).map fun _ =>
        ({ c with instruction_pointer := c.instruction_pointer + 8 }, true) := by
  simp [execute_case]

theorem execute_case_end (z : Sizes) (c : Cocomp) : execute_case z c 0xFF = some (c, false) := by
  simp [execute_case]

theorem fields_of_map {α : Type} (x : Option α) (f : α → Cocomp × Bool) (c c1 : Cocomp)
    (r : Bool) (k : Int) (h : x.map f = some (c1, r))
    (hf : ∀ a, (f a).1.dynamic_code_area = c.dynamic_code_area ∧
      (f a).1.instruction_pointer = c.instruction_pointer + k) :
    c1.dynamic_code_area = c.dynamic_code_area ∧
    c1.instruction_pointer = c.instruction_pointer + k := by
  obtain ⟨a, _, ha⟩ := Option.map_eq_some'.mp h
  have h1 := hf a
  rw [ha] at h1
  exact h1

theorem byte_outside_opcodes (b : Byte)
    (h01 : b ≠ 0x01) (h02 : b ≠ 0x02) (h03 : b ≠ 0x03) (h04 : b ≠ 0x04) (h05 : b ≠ 0x05)
    (h06 : b ≠ 0x06) (h07 : b ≠ 0x07) (h08 : b ≠ 0x08) (h09 : b ≠ 0x09) (h0A : b ≠ 0x0A)
    (h0B : b ≠ 0x0B) (h0C : b ≠ 0x0C) (h0D : b ≠ 0x0D) (h0E : b ≠ 0x0E) (h0F : b ≠ 0x0F)
    (h10 : b ≠ 0x10) (h11 : b ≠ 0x11) (h12 : b ≠ 0x12) (h13 : b ≠ 0x13) :
    ¬ (1 ≤ b.val ∧ b.val ≤ 0x13) := by
  have key : ∀ (k : Nat) (hk : k < 256), b ≠ ⟨k, hk⟩ → b.val ≠ k :=
    fun k hk hne h => hne (Fin.ext h)
  have e01 := key 0x01 (by decide) h01
  have e02 := key 0x02 (by decide) h02
  have e03 := key 0x03 (by decide) h03
  have e04 := key 0x04 (by decide) h04
  have e05 := key 0x05 (by decide) h05
  have e06 := key 0x06 (by decide) h06
  have e07 := key 0x07 (by decide) h07
  have e08 := key 0x08 (by decide) h08
  have e09 := key 0x09 (by decide) h09
  have e0A := key 0x0A (by decide) h0A
  have e0B := key 0x0B (by decide) h0B
  have e0C := key 0x0C (by decide) h0C
  have e0D := key 0x0D (by decide) h0D
  have e0E := key 0x0E (by decide) h0E
  have e0F := key 0x0F (by decide) h0F
  have e10 := key 0x10 (by decide) h10
  have e11 := key 0x11 (by decide) h11
  have e12 := key 0x12 (by decide) h12
  have e13 := key 0x13 (by decide) h13
  omega

theorem execute_case_fields (z : Sizes) (c c1 : Cocomp) (b : Byte) (r : Bool)
    (h : execute_case z c b = some (c1, r)) :
    c1.dynamic_code_area = c.dynamic_code_area ∧
    (b ≠ 0x06 → b ≠ 0x07 → b ≠ 0x0D → b ≠ 0x08 → b ≠ 0x0E →
      c.instruction_pointer ≤ c1.instruction_pointer ∧
      c1.instruction_pointer ≤ c.instruction_pointer + 8) := by
  have step : ∀ k : Int, 0 ≤ k → k ≤ 8 →
      c1.dynamic_code_area = c.dynamic_code_area ∧
        c1.instruction_pointer = c.instruction_pointer + k →
      c1.dynamic_code_area = c.dynamic_code_area ∧
      (b ≠ 0x06 → b ≠ 0x07 → b ≠ 0x0D → b ≠ 0x08 → b ≠ 0x0E →
        c.instruction_pointer ≤ c1.instruction_pointer ∧
        c1.instruction_pointer ≤ c.instruction_pointer + 8) := by
    intro k hk0 hk8 hf
    exact ⟨hf.1, fun _ _ _ _ _ => by omega⟩
  by_cases h01 : b = 0x01
  · rw [h01, execute_case_load_float] at h
    exact step 8 (by omega) (by omega) (fields_of_map _ _ c c1 r 8 h fun _ => ⟨rfl, rfl⟩)
  by_cases h02 : b = 0x02
  · rw [h02, execute_case_add] at h
    exact step 8 (by omega) (by omega) (fields_of_map _ _ c c1 r 8 h fun _ => ⟨rfl, rfl⟩)
  by_cases h03 : b = 0x03
  · rw [h03, execute_case_store] at h
    obtain ⟨address, _, ha⟩ := Option.bind_eq_some.mp h
    split at ha
    · obtain ⟨c2, hs, hc2⟩ := Option.map_eq_some'.mp ha
      have hf := store_double_fields z c c2 address c.accumulator hs
      cases hc2
      exact step 4 (by omega) (by omega) ⟨hf.2, rfl⟩
    · cases ha
      exact step 4 (by omega) (by omega) ⟨rfl, rfl⟩
  by_cases h04 : b = 0x04
  · rw [h04, execute_case_push] at h
    obtain ⟨c2, hp, hc2⟩ := Option.map_eq_some'.mp h
    have hf := push_stack_fields z c c2 c.accumulator hp
    cases hc2
    exact step 0 (by omega) (by omega) ⟨hf.2, by rw [hf.1]; omega⟩
  by_cases h05 : b = 0x05
  · rw [h05, execute_case_pop] at h
    obtain ⟨p, hp, hc2⟩ := Option.map_eq_some'.mp h
    have hf := pop_stack_fields z c p hp
    cases hc2
    exact step 0 (by omega) (by omega)
      ⟨hf.2, by show p.2.instruction_pointer = _; rw [hf.1]; omega⟩
  by_cases h06 : b = 0x06
  · rw [h06, execute_case_jump] at h
    obtain ⟨t, _, hc2⟩ := Option.map_eq_some'.mp h
    cases hc2
    exact ⟨rfl, fun hne => absurd h06 hne⟩
  by_cases h07 : b = 0x07 ∨ b = 0x0D
  · rw [execute_case_call z c b h07] at h
    obtain ⟨c2, hp, hb⟩ := Option.bind_eq_some.mp h
    obtain ⟨t, _, hc2⟩ := Option.map_eq_some'.mp hb
    have hf := push_stack_fields z c c2 _ hp
    cases hc2
    exact ⟨hf.2, fun _ hn7 hnD => by
      rcases h07 with h | h
      · exact absurd h hn7
      · exact absurd h hnD⟩
  by_cases h08 : b = 0x08 ∨ b = 0x0E
  · rw [execute_case_return z c b h08] at h
    obtain ⟨p, hp, hc2⟩ := Option.map_eq_some'.mp h
    have hf := pop_stack_fields z c p hp
    cases hc2
    exact ⟨hf.2, fun _ _ _ hn8 hnE => by
      rcases h08 with h | h
      · exact absurd h hn8
      · exact absurd h hnE⟩
  by_cases h09 : b = 0x09
  · rw [h09, execute_case_nop] at h
    cases h
    exact step 1 (by omega) (by omega) ⟨rfl, rfl⟩
  by_cases h0A : b = 0x0A
  · rw [h0A, execute_case_sub] at h
    exact step 8 (by omega) (by omega) (fields_of_map _ _ c c1 r 8 h fun _ => ⟨rfl, rfl⟩)
  by_cases h0B : b = 0x0B
  · rw [h0B, execute_case_compare] at h
    exact step 8 (by omega) (by omega) (fields_of_map _ _ c c1 r 8 h fun _ => ⟨rfl, rfl⟩)
  by_cases h0C : b = 0x0C
  · rw [h0C, execute_case_syscall] at h
    refine step 1 (by omega) (by omega) (fields_of_map _ _ c c1 r 1 h fun code => ?_)
    exact ⟨handle_interrupt_dynamic_code_area _ _, (handle_interrupt_fields _ _).1⟩
  by_cases hbit : b = 0x0F ∨ b = 0x10 ∨ b = 0x11 ∨ b = 0x12 ∨ b = 0x13
  · obtain ⟨f, hf⟩ := execute_case_bitwise z c b hbit
    rw [hf] at h
    exact step 4 (by omega) (by omega) (fields_of_map _ _ c c1 r 4 h fun _ => ⟨rfl, rfl⟩)
  by_cases hFF : b = 0xFF
  · rw [hFF, execute_case_end] at h
    cases h
    exact step 0 (by omega) (by omega) ⟨rfl, by omega⟩
  · have hout := byte_outside_opcodes b h01 h02 h03 h04 h05 h06
      (fun e => h07 (Or.inl e)) (fun e => h08 (Or.inl e)) h09 h0A h0B h0C
      (fun e => h07 (Or.inr e)) (fun e => h08 (Or.inr e))
      (fun e => hbit (Or.inl e)) (fun e => hbit (Or.inr (Or.inl e)))
      (fun e => hbit (Or.inr (Or.inr (Or.inl e))))
      (fun e => hbit (Or.inr (Or.inr (Or.inr (Or.inl e)))))
      (fun e => hbit (Or.inr (Or.inr (Or.inr (Or.inr e)))))
    rw [execute_case_unknown z c b hout hFF] at h
    cases h
    exact step 0 (by omega) (by omega) ⟨rfl, by show c.instruction_pointer = _; omega⟩

theorem dispatch_inv (z : Sizes) (c c1 : Cocomp) (r : Bool)
    (h : dispatch z c = some (c1, r)) :
    0 ≤ c.instruction_pointer ∧ c.instruction_pointer < z.MEMORY_SIZE ∧
    ∃ c2, execute_case z c (c.memory c.instruction_pointer) = some (c2, r) ∧
      c1.dynamic_code_area = c2.dynamic_code_area ∧
      c1.instruction_pointer = wrap32 (c2.instruction_pointer + 1) := by
  unfold dispatch load_byte at h
  split at h
  · rename_i hin
    obtain ⟨p, hp, hc1⟩ := Option.map_eq_some'.mp h
    cases hc1
    exact ⟨hin.1, hin.2, p.1, hp, rfl, rfl⟩
  · cases h

theorem execute_loop_dynamic_code_area (z : Sizes) :
    ∀ (fuel : Nat) (running : Bool) (c : Cocomp) (running1 : Bool) (c1 : Cocomp),
      execute_loop z fuel running c = Run.returned running1 c1 →
      c1.dynamic_code_area = c.dynamic_code_area := by
  intro fuel
  induction fuel with
  | zero =>
    intro running c running1 c1 h
    unfold execute_loop at h
    split at h
    · cases h
    · cases h; rfl
  | succ fuel ih =>
    intro running c running1 c1 h
    unfold execute_loop at h
    split at h
    · cases hd : dispatch z c with
      | none => rw [hd] at h; cases h
      | some p =>
        obtain ⟨c2, running2⟩ := p
        rw [hd] at h
        obtain ⟨_, _, c3, hc, hdca, _⟩ := dispatch_inv z c c2 running2 hd
        rw [ih running2 c2 running1 c1 h, hdca, (execute_case_fields z c c3 _ running2 hc).1]
    · cases h; rfl

/-! ## `load_dynamic_code` of `cocomp2.c` -/

theorem array_list_getD (a : Int → Byte) (n k : Nat) (h : k < n) :
    (array_list a n).getD k 0 = a k := by
  simp [array_list, List.getD_eq_getElem?_getD, h]

theorem array_list_length (a : Int → Byte) (n : Nat) : (array_list a n).length = n := by
  simp [array_list]

/-- Claim C21 fails as stated. `load_dynamic_code` of `cocomp2.c` called on the initialised
machine with the eight bytes of `dynamic_code` of `main`: the call stages the bytes, copies them
to the arena and runs them. When it returns, `memory[0]` is `0x01` (it was 0), the instruction
pointer is 10 (it was 0) and the accumulator holds the bytes `40 00 00 02 06 10 FF 00` that
LOAD_FLOAT took as its operand (it was `0.0`). -/
theorem dynamic_code_is_loaded_and_run :
    ((initialize_cocomp2 blank).memory 0, (initialize_cocomp2 blank).instruction_pointer,
      (initialize_cocomp2 blank).accumulator) = (0x00, 0, f64 0) ∧
    (load_dynamic_code2 cocomp2_c 2 (initialize_cocomp2 blank) main_dynamic_code 8).final.map
      (fun c => (c.memory 0, c.instruction_pointer, c.accumulator, c.stdout)) =
        some (0x01, 10, f64 0x00FF100602000040,
          [Msg.neural_network_initialized, Msg.dynamic_code_loaded,
            Msg.unknown_instruction 0x00 9]) ∧
    ¬ ∃ c1, (load_dynamic_code2 cocomp2_c 2 (initialize_cocomp2 blank)
        main_dynamic_code 8).final = some c1 ∧
      c1.memory = (initialize_cocomp2 blank).memory := by
  refine ⟨by decide, by set_option maxRecDepth 100000 in decide, ?_⟩
  rintro ⟨c1, h, hm⟩
  have hb : (load_dynamic_code2 cocomp2_c 2 (initialize_cocomp2 blank)
      main_dynamic_code 8).final.map (fun c => c.memory 0) = some 0x01 := by
    set_option maxRecDepth 100000 in decide
  rw [h] at hb
  simp only [Option.map, Option.some.injEq] at hb
  rw [hm] at hb
  exact absurd hb (by decide)

theorem load_dynamic_code2_fits (fuel : Nat) (c : Cocomp) (code : List Byte) (size : Int)
    (h0 : 0 ≤ size) (h1 : size ≤ cocomp2_c.DYNAMIC_CODE_SIZE) (h2 : size ≤ code.length) :
    ∃ c2, load_dynamic_code2 cocomp2_c fuel c code size =
        Loaded.ran (execute_program cocomp2_c fuel c2) ∧
      (∀ i, 0 ≤ i → i < size → c2.dynamic_code_area i = code.getD i.toNat 0) ∧
      (∀ i, 0 ≤ i → i < size → c2.memory i = code.getD i.toNat 0) ∧
      (∀ i, i < 0 ∨ size ≤ i → c2.dynamic_code_area i = c.dynamic_code_area i) ∧
      (∀ i, i < 0 ∨ size ≤ i → c2.memory i = c.memory i) ∧
      c2.instruction_pointer = c.instruction_pointer ∧ c2.accumulator = c.accumulator ∧
      c2.stack_pointer = c.stack_pointer ∧
      c2.stdout = c.stdout ++ [Msg.dynamic_code_loaded] := by
  have h1' : size ≤ 1024 := h1
  have hs : ¬ (size < 0 ∨ size > cocomp2_c.DYNAMIC_CODE_SIZE) := by
    simp only [cocomp2_c]; omega
  have hc : ¬ size > (code.length : Int) := by omega
  have hl1 : ¬ size > cocomp2_c.MEMORY_SIZE := by
    simp only [cocomp2_c]; omega
  have hl2 : ∀ a : Int → Byte, ¬ (size < 0 ∨
      size > ((array_list a cocomp2_c.DYNAMIC_CODE_SIZE.toNat).length : Int)) := by
    intro a
    rw [array_list_length]
    simp only [cocomp2_c]
    omega
  refine ⟨{ print { c with dynamic_code_area := copy_in c.dynamic_code_area code size }
        Msg.dynamic_code_loaded with
      memory := fun i =>
        if 0 ≤ i ∧ i < size then
          (array_list (copy_in c.dynamic_code_area code size)
            cocomp2_c.DYNAMIC_CODE_SIZE.toNat).getD i.toNat 0
        else c.memory i }, ?_, ?_, ?_, ?_, ?_, rfl, rfl, rfl, rfl⟩
  · simp only [load_dynamic_code2, if_neg hs, if_neg hc, load_program, if_neg hl1, print,
      if_neg (hl2 _)]
  · intro i hi0 hi1
    have hi : 0 ≤ i ∧ i < size := ⟨hi0, hi1⟩
    simp only [print, copy_in, if_pos hi]
  · intro i hi0 hi1
    have hi : 0 ≤ i ∧ i < size := ⟨hi0, hi1⟩
    have hk : i.toNat < cocomp2_c.DYNAMIC_CODE_SIZE.toNat := by
      simp only [cocomp2_c]; omega
    have hcast : ((i.toNat : Nat) : Int) = i := Int.toNat_of_nonneg hi0
    simp only [print, if_pos hi]
    rw [array_list_getD _ _ _ hk, hcast]
    simp only [copy_in, if_pos hi]
  · intro i hi
    have hn : ¬ (0 ≤ i ∧ i < size) := by omega
    simp only [print, copy_in, if_neg hn]
  · intro i hi
    have hn : ¬ (0 ≤ i ∧ i < size) := by omega
    simp only [print, if_neg hn]

/-- Claim C21 as amended. For a payload that fits the staging buffer (`0 <= size <= 1024`, and the
array `code` holds at least `size` bytes), `load_dynamic_code` of `cocomp2.c` stages the code, so
that `dynamic_code_area[0, size)` equals the payload, prints its line, copies these `size` bytes
to `memory[0, size)` with `load_program`, and then calls `execute_program` on that state: every
other byte of both arrays, the instruction pointer, the accumulator and the stack pointer are
still unchanged when the run starts, and what the call leaves is what that run leaves. When the
call returns, `dynamic_code_area[0, size)` still equals the payload. -/
theorem dynamic_code_staged_loaded_run (fuel : Nat) (c : Cocomp) (code : List Byte) (size : Int)
    (h0 : 0 ≤ size) (h1 : size ≤ cocomp2_c.DYNAMIC_CODE_SIZE) (h2 : size ≤ code.length) :
    (∃ c2, load_dynamic_code2 cocomp2_c fuel c code size =
        Loaded.ran (execute_program cocomp2_c fuel c2) ∧
      (∀ i, 0 ≤ i → i < size → c2.dynamic_code_area i = code.getD i.toNat 0) ∧
      (∀ i, 0 ≤ i → i < size → c2.memory i = code.getD i.toNat 0) ∧
      (∀ i, i < 0 ∨ size ≤ i → c2.dynamic_code_area i = c.dynamic_code_area i) ∧
      (∀ i, i < 0 ∨ size ≤ i → c2.memory i = c.memory i) ∧
      c2.instruction_pointer = c.instruction_pointer ∧ c2.accumulator = c.accumulator ∧
      c2.stack_pointer = c.stack_pointer ∧
      c2.stdout = c.stdout ++ [Msg.dynamic_code_loaded]) ∧
    (∀ c3, (load_dynamic_code2 cocomp2_c fuel c code size).final = some c3 →
      ∀ i, 0 ≤ i → i < size → c3.dynamic_code_area i = code.getD i.toNat 0) := by
  obtain ⟨c2, hrun, hd, hrest⟩ := load_dynamic_code2_fits fuel c code size h0 h1 h2
  refine ⟨⟨c2, hrun, hd, hrest⟩, ?_⟩
  intro c3 hfin i hi0 hi1
  rw [hrun] at hfin
  cases hr : execute_program cocomp2_c fuel c2 with
  | returned running c4 =>
    rw [hr] at hfin
    cases hfin
    rw [execute_loop_dynamic_code_area cocomp2_c fuel true c2 running c3 hr]
    exact hd i hi0 hi1
  | undefined => rw [hr] at hfin; cases hfin
  | unfinished c4 => rw [hr] at hfin; cases hfin

/-- Claim C21 as amended, at a concrete input: the eight bytes of `dynamic_code` of `main` on the
initialised machine. -/
theorem dynamic_code_staged_loaded_run_witness :
    (∃ c2, load_dynamic_code2 cocomp2_c 2 (initialize_cocomp2 blank) main_dynamic_code 8 =
        Loaded.ran (execute_program cocomp2_c 2 c2) ∧
      (∀ i, 0 ≤ i → i < 8 → c2.dynamic_code_area i = main_dynamic_code.getD i.toNat 0) ∧
      (∀ i, 0 ≤ i → i < 8 → c2.memory i = main_dynamic_code.getD i.toNat 0) ∧
      (∀ i, i < 0 ∨ 8 ≤ i →
        c2.dynamic_code_area i = (initialize_cocomp2 blank).dynamic_code_area i) ∧
      (∀ i, i < 0 ∨ 8 ≤ i → c2.memory i = (initialize_cocomp2 blank).memory i) ∧
      c2.instruction_pointer = (initialize_cocomp2 blank).instruction_pointer ∧
      c2.accumulator = (initialize_cocomp2 blank).accumulator ∧
      c2.stack_pointer = (initialize_cocomp2 blank).stack_pointer ∧
      c2.stdout = (initialize_cocomp2 blank).stdout ++ [Msg.dynamic_code_loaded]) ∧
    (∀ c3, (load_dynamic_code2 cocomp2_c 2 (initialize_cocomp2 blank)
        main_dynamic_code 8).final = some c3 →
      ∀ i, 0 ≤ i → i < 8 → c3.dynamic_code_area i = main_dynamic_code.getD i.toNat 0) :=
  dynamic_code_staged_loaded_run 2 (initialize_cocomp2 blank) main_dynamic_code 8 (by decide)
    (by decide) (by decide)

/-! ## Resident pages in `cocomp.c` -/

theorem simulate_page_fault_resident (c : Cocomp) (address : Int) (h0 : 0 ≤ address)
    (h1 : address < 1024) :
    (0 ≤ page_of cocomp_c address ∧ page_of cocomp_c address < 16) ∧
    ∃ c1, simulate_page_fault cocomp_c c address = some c1 ∧
      (c1.page_table = c.page_table ∨
        (c1.page_table (page_of cocomp_c address) ≠ INVALID_PAGE ∧
          ∀ j, j ≠ page_of cocomp_c address →
            c1.page_table j = evict_first c.page_table 16 0 j)) := by
  have hp := page_of_cocomp_c address h0
  have hrange : 0 ≤ page_of cocomp_c address ∧ page_of cocomp_c address < NUM_PAGES cocomp_c := by
    rw [hp, num_pages_cocomp_c]; omega
  have hr16 : 0 ≤ page_of cocomp_c address ∧ page_of cocomp_c address < 16 := by
    rw [hp]; omega
  refine ⟨hr16, ?_⟩
  by_cases hinv : c.page_table (page_of cocomp_c address) = INVALID_PAGE
  · have hsim : simulate_page_fault cocomp_c c address =
        some { print c (Msg.page_fault address) with
          page_table := fun j =>
            if j = page_of cocomp_c address then to_byte (page_of cocomp_c address)
            else evict_first c.page_table (NUM_PAGES cocomp_c).toNat 0 j } := by
      simp only [simulate_page_fault, if_pos hrange, if_pos hinv]
    refine ⟨_, hsim, Or.inr ⟨?_, ?_⟩⟩
    · simp only [print, if_true]
      intro hbad
      have hv := to_byte_val (page_of cocomp_c address) hr16.1 (by omega)
      rw [hbad] at hv
      have h255 : ((INVALID_PAGE.val : Nat) : Int) = 255 := by decide
      omega
    · intro j hj
      simp only [print, if_neg hj]
      rfl
  · exact ⟨c, by simp only [simulate_page_fault, if_pos hrange, if_neg hinv], Or.inl rfl⟩

theorem evict_first_clears (t : Int → Byte) (h : at_most_one_resident cocomp_c t) (j : Int)
    (hj0 : 0 ≤ j) (hj1 : j < 16) : evict_first t 16 0 j = INVALID_PAGE := by
  rcases evict_first_spec t 16 0 with ⟨r, hr1, hr2, hr3, _, hr5⟩ | ⟨hnone, hsame⟩
  · rw [hr5]
    by_cases hjr : j = r
    · simp only [hjr, if_true]
    · simp only [if_neg hjr]
      by_contra hres
      exact hjr (h j r hj0 (by rw [num_pages_cocomp_c]; exact hj1) hr1
        (by rw [num_pages_cocomp_c]; push_cast at hr2; omega) hres hr3)
  · rw [hsame]
    exact hnone j (by omega) (by push_cast; omega)

theorem simulate_page_fault_keeps_one (c : Cocomp) (address : Int) (h0 : 0 ≤ address)
    (h1 : address < 1024) (h : at_most_one_resident cocomp_c c.page_table) :
    ∃ c1, simulate_page_fault cocomp_c c address = some c1 ∧
      at_most_one_resident cocomp_c c1.page_table := by
  obtain ⟨_, c1, hsim, hcase⟩ := simulate_page_fault_resident c address h0 h1
  refine ⟨c1, hsim, ?_⟩
  rcases hcase with hsame | ⟨_, hother⟩
  · rw [hsame]; exact h
  · have hclear : ∀ j, 0 ≤ j → j < 16 → c1.page_table j ≠ INVALID_PAGE →
        j = page_of cocomp_c address := by
      intro j hj0 hj1 hres
      by_contra hne
      exact hres (by rw [hother j hne]; exact evict_first_clears c.page_table h j hj0 hj1)
    intro i j hi0 hi1 hj0 hj1 hi hj
    rw [num_pages_cocomp_c] at hi1 hj1
    rw [hclear i hi0 hi1 hi, hclear j hj0 hj1 hj]

theorem page_faults_keep_one :
    ∀ (addresses : List Int) (c : Cocomp),
      (∀ a ∈ addresses, 0 ≤ a ∧ a < cocomp_c.MEMORY_SIZE) →
      at_most_one_resident cocomp_c c.page_table →
      ∃ c1, page_faults cocomp_c addresses c = some c1 ∧
        at_most_one_resident cocomp_c c1.page_table := by
  intro addresses
  induction addresses with
  | nil =>
    intro c _ h
    exact ⟨c, rfl, h⟩
  | cons a rest ih =>
    intro c ha h
    have hin := ha a (List.mem_cons_self _ _)
    obtain ⟨c1, hsim, h1⟩ := simulate_page_fault_keeps_one c a hin.1 hin.2 h
    obtain ⟨c2, hrest, h2⟩ := ih c1 (fun b hb => ha b (List.mem_cons_of_mem _ hb)) h1
    refine ⟨c2, ?_, h2⟩
    simp only [page_faults, hsim, Option.bind]
    exact hrest

/-- Claim C25. In `cocomp.c`, after `initialize_cocomp` and any sequence of calls of
`simulate_page_fault` with addresses in `[0, MEMORY_SIZE)`, every call returns and at most one
entry of the page table is resident: two entries of the table are never resident at once. -/
theorem at_most_one_page_resident (c : Cocomp) (addresses : List Int)
    (h : ∀ a ∈ addresses, 0 ≤ a ∧ a < cocomp_c.MEMORY_SIZE) :
    ∃ c1, page_faults cocomp_c addresses (initialize_cocomp c) = some c1 ∧
      at_most_one_resident cocomp_c c1.page_table := by
  refine page_faults_keep_one addresses (initialize_cocomp c) h ?_
  intro i j _ _ _ _ hi _
  exact absurd rfl hi

/-- Claim C25 at a concrete input: faults at the addresses 128, 0, 1000 and 130 after
`initialize_cocomp`. -/
theorem at_most_one_page_resident_witness :
    ∃ c1, page_faults cocomp_c [128, 0, 1000, 130] (initialize_cocomp blank) = some c1 ∧
      at_most_one_resident cocomp_c c1.page_table :=
  at_most_one_page_resident blank [128, 0, 1000, 130] (by decide)

/-! ## Operand widths, for every state an iteration returns -/

theorem execute_case_returns (c : Cocomp) (h : accesses_inside cocomp2_c c)
    (h03 : c.memory c.instruction_pointer ≠ 0x03) :
    ∃ c2 r, execute_case cocomp2_c c (c.memory c.instruction_pointer) = some (c2, r) := by
  obtain ⟨⟨h0, h1⟩, h8, h4, hb1, hst, hpu, hpo⟩ := h
  have h1' : c.instruction_pointer < 4096 := h1
  have double_operand : c.instruction_pointer + 1 + 8 ≤ cocomp2_c.MEMORY_SIZE →
      ∃ v, load_double cocomp2_c c (c.instruction_pointer + 1) = some v := by
    intro hle
    have hin : 0 ≤ c.instruction_pointer + 1 ∧
        c.instruction_pointer + 1 + 8 ≤ cocomp2_c.MEMORY_SIZE := ⟨by omega, hle⟩
    simp only [load_double, if_pos hin]
    exact ⟨_, rfl⟩
  have byte_operand : ∀ c1 : Cocomp, c.instruction_pointer + 1 < cocomp2_c.MEMORY_SIZE →
      ∃ t, load_byte cocomp2_c c1 (c.instruction_pointer + 1) = some t := by
    intro c1 hlt
    have hin : 0 ≤ c.instruction_pointer + 1 ∧
        c.instruction_pointer + 1 < cocomp2_c.MEMORY_SIZE := ⟨by omega, hlt⟩
    simp only [load_byte, if_pos hin]
    exact ⟨_, rfl⟩
  have int_operand : c.instruction_pointer + 1 + 4 ≤ cocomp2_c.MEMORY_SIZE →
      load_int cocomp2_c c (c.instruction_pointer + 1) =
        some (read_int c.memory (c.instruction_pointer + 1)) := by
    intro hle
    have hle' : c.instruction_pointer + 1 + 4 ≤ 4096 := hle
    exact load_int_inside c (c.instruction_pointer + 1) (by omega) (by omega)
  have push_ok : (c.stack_pointer ≤ cocomp2_c.MEMORY_SIZE - cocomp2_c.STACK_SIZE ∨
      (0 ≤ c.stack_pointer - 1 ∧ c.stack_pointer - 1 + 8 ≤ cocomp2_c.MEMORY_SIZE)) →
      ∀ v, ∃ c1, push_stack cocomp2_c c v = some c1 := by
    intro hs v
    have hs' : c.stack_pointer ≤ 4096 - 512 ∨
        (0 ≤ c.stack_pointer - 1 ∧ c.stack_pointer - 1 + 8 ≤ 4096) := hs
    exact push_stack_inside c v (by omega)
  have pop_ok : (c.stack_pointer ≥ cocomp2_c.MEMORY_SIZE ∨
      (0 ≤ c.stack_pointer ∧ c.stack_pointer + 8 ≤ cocomp2_c.MEMORY_SIZE)) →
      ∃ p, pop_stack cocomp2_c c = some p := fun hs => pop_stack_defined c hs
  by_cases h01 : c.memory c.instruction_pointer = 0x01
  · obtain ⟨v, hv⟩ := double_operand (h8 (Or.inl h01))
    rw [h01, execute_case_load_float, hv]
    exact ⟨_, _, rfl⟩
  by_cases h02 : c.memory c.instruction_pointer = 0x02
  · obtain ⟨v, hv⟩ := double_operand (h8 (Or.inr (Or.inl h02)))
    rw [h02, execute_case_add, hv]
    exact ⟨_, _, rfl⟩
  by_cases h0A : c.memory c.instruction_pointer = 0x0A
  · obtain ⟨v, hv⟩ := double_operand (h8 (Or.inr (Or.inr (Or.inl h0A))))
    rw [h0A, execute_case_sub, hv]
    exact ⟨_, _, rfl⟩
  by_cases h0B : c.memory c.instruction_pointer = 0x0B
  · obtain ⟨v, hv⟩ := double_operand (h8 (Or.inr (Or.inr (Or.inr h0B))))
    rw [h0B, execute_case_compare, hv]
    exact ⟨_, _, rfl⟩
  by_cases h04 : c.memory c.instruction_pointer = 0x04
  · obtain ⟨c1, hp⟩ := push_ok (hpu (Or.inl h04)) c.accumulator
    rw [h04, execute_case_push, hp]
    exact ⟨_, _, rfl⟩
  by_cases h05 : c.memory c.instruction_pointer = 0x05
  · obtain ⟨p, hp⟩ := pop_ok (hpo (Or.inl h05))
    rw [h05, execute_case_pop, hp]
    exact ⟨_, _, rfl⟩
  by_cases h06 : c.memory c.instruction_pointer = 0x06
  · rw [h06, execute_case_jump, int_operand (h4 (Or.inr (Or.inl h06)))]
    exact ⟨_, _, rfl⟩
  by_cases h07 : c.memory c.instruction_pointer = 0x07 ∨ c.memory c.instruction_pointer = 0x0D
  · have hcall : c.memory c.instruction_pointer = 0x0C ∨
        c.memory c.instruction_pointer = 0x07 ∨ c.memory c.instruction_pointer = 0x0D :=
      Or.inr h07
    have hpush : c.memory c.instruction_pointer = 0x04 ∨
        c.memory c.instruction_pointer = 0x07 ∨ c.memory c.instruction_pointer = 0x0D :=
      Or.inr h07
    obtain ⟨c1, hp⟩ := push_ok (hpu hpush) (f64_of_int (c.instruction_pointer + 1))
    obtain ⟨t, ht⟩ := byte_operand c1 (hb1 hcall)
    rw [execute_case_call cocomp2_c c _ h07, hp]
    simp only [Option.bind, ht]
    exact ⟨_, _, rfl⟩
  by_cases h08 : c.memory c.instruction_pointer = 0x08 ∨ c.memory c.instruction_pointer = 0x0E
  · have hret : c.memory c.instruction_pointer = 0x05 ∨
        c.memory c.instruction_pointer = 0x08 ∨ c.memory c.instruction_pointer = 0x0E :=
      Or.inr h08
    obtain ⟨p, hp⟩ := pop_ok (hpo hret)
    rw [execute_case_return cocomp2_c c _ h08, hp]
    exact ⟨_, _, rfl⟩
  by_cases h09 : c.memory c.instruction_pointer = 0x09
  · rw [h09, execute_case_nop]
    exact ⟨_, _, rfl⟩
  by_cases h0C : c.memory c.instruction_pointer = 0x0C
  · obtain ⟨t, ht⟩ := byte_operand c (hb1 (Or.inl h0C))
    rw [h0C, execute_case_syscall, ht]
    exact ⟨_, _, rfl⟩
  by_cases hbit : c.memory c.instruction_pointer = 0x0F ∨
      c.memory c.instruction_pointer = 0x10 ∨ c.memory c.instruction_pointer = 0x11 ∨
      c.memory c.instruction_pointer = 0x12 ∨ c.memory c.instruction_pointer = 0x13
  · obtain ⟨f, hf⟩ := execute_case_bitwise cocomp2_c c _ hbit
    rw [hf, int_operand (h4 (Or.inr (Or.inr hbit)))]
    exact ⟨_, _, rfl⟩
  by_cases hFF : c.memory c.instruction_pointer = 0xFF
  · rw [hFF, execute_case_end]
    exact ⟨_, _, rfl⟩
  · have hout := byte_outside_opcodes (c.memory c.instruction_pointer) h01 h02 h03 h04 h05 h06
      (fun e => h07 (Or.inl e)) (fun e => h08 (Or.inl e)) h09 h0A h0B h0C
      (fun e => h07 (Or.inr e)) (fun e => h08 (Or.inr e))
      (fun e => hbit (Or.inl e)) (fun e => hbit (Or.inr (Or.inl e)))
      (fun e => hbit (Or.inr (Or.inr (Or.inl e))))
      (fun e => hbit (Or.inr (Or.inr (Or.inr (Or.inl e)))))
      (fun e => hbit (Or.inr (Or.inr (Or.inr (Or.inr e)))))
    rw [execute_case_unknown cocomp2_c c _ hout hFF]
    exact ⟨_, _, rfl⟩

theorem dispatch_returns (c : Cocomp) (h : accesses_inside cocomp2_c c) :
    ∃ c1 r, dispatch cocomp2_c c = some (c1, r) := by
  by_cases h03 : c.memory c.instruction_pointer = 0x03
  · have h0 := h.1.1
    have h4 : c.instruction_pointer + 1 + 4 ≤ 4096 := h.2.2.1 (Or.inl h03)
    have hst : ¬ (read_int c.memory (c.instruction_pointer + 1) ≥ 0 ∧
          read_int c.memory (c.instruction_pointer + 1) < 4096) ∨
        read_int c.memory (c.instruction_pointer + 1) + 8 ≤ 4096 := h.2.2.2.2.1 h03
    clear h
    by_cases hv : read_int c.memory (c.instruction_pointer + 1) < 0 ∨
        4096 ≤ read_int c.memory (c.instruction_pointer + 1)
    · exact ⟨_, _, dispatch_store_invalid c h03 h0 (by omega) hv⟩
    · exact ⟨_, _, dispatch_store c h03 h0 (by omega) (by omega) (by omega)⟩
  · obtain ⟨c2, r, hc⟩ := execute_case_returns c h h03
    exact ⟨_, r, dispatch_of_case cocomp2_c c c2 _ r h.1.1 h.1.2 rfl hc⟩

theorem load_double_some (z : Sizes) (c : Cocomp) (a : Int) (v : Double)
    (h : load_double z c a = some v) : 0 ≤ a ∧ a + 8 ≤ z.MEMORY_SIZE := by
  unfold load_double at h
  split at h
  · assumption
  · cases h

theorem load_int_some (z : Sizes) (c : Cocomp) (a : Int) (v : Int)
    (h : load_int z c a = some v) :
    (0 ≤ a ∧ a + 4 ≤ z.MEMORY_SIZE) ∧ v = read_int c.memory a := by
  unfold load_int at h
  by_cases hin : 0 ≤ a ∧ a + 4 ≤ z.MEMORY_SIZE
  · rw [if_pos hin] at h
    exact ⟨hin, (Option.some.inj h).symm⟩
  · rw [if_neg hin] at h
    cases h

theorem load_byte_some (z : Sizes) (c : Cocomp) (a : Int) (v : Byte)
    (h : load_byte z c a = some v) : 0 ≤ a ∧ a < z.MEMORY_SIZE := by
  unfold load_byte at h
  split at h
  · assumption
  · cases h

theorem store_double_some (z : Sizes) (c c1 : Cocomp) (a : Int) (d : Double)
    (h : store_double z c a d = some c1) : 0 ≤ a ∧ a + 8 ≤ z.MEMORY_SIZE := by
  unfold store_double at h
  split at h
  · assumption
  · cases h

theorem push_stack_some (z : Sizes) (c c1 : Cocomp) (v : Double)
    (h : push_stack z c v = some c1) :
    c.stack_pointer ≤ z.MEMORY_SIZE - z.STACK_SIZE ∨
      (0 ≤ c.stack_pointer - 1 ∧ c.stack_pointer - 1 + 8 ≤ z.MEMORY_SIZE) := by
  unfold push_stack at h
  split at h
  · left; assumption
  · right
    exact store_double_some z { c with stack_pointer := c.stack_pointer - 1 } c1 _ v h

theorem pop_stack_some (z : Sizes) (c : Cocomp) (p : Double × Cocomp)
    (h : pop_stack z c = some p) :
    c.stack_pointer ≥ z.MEMORY_SIZE ∨
      (0 ≤ c.stack_pointer ∧ c.stack_pointer + 8 ≤ z.MEMORY_SIZE) := by
  unfold pop_stack at h
  split at h
  · left; assumption
  · right
    cases hl : load_double z c c.stack_pointer with
    | none => rw [hl] at h; cases h
    | some v => exact load_double_some z c _ v hl

theorem accesses_inside_of_returns (z : Sizes) (c c1 : Cocomp) (r : Bool)
    (h : dispatch z c = some (c1, r)) : accesses_inside z c := by
  obtain ⟨h0, h1, c2, hc, _, _⟩ := dispatch_inv z c c1 r h
  refine ⟨⟨h0, h1⟩, ?_, ?_, ?_, ?_, ?_, ?_⟩
  · intro hb
    have hmap : ∃ f : Double → Cocomp × Bool,
        (load_double z c (c.instruction_pointer + 1)).map f = some (c2, r) := by
      rcases hb with hb | hb | hb | hb
      · rw [hb, execute_case_load_float] at hc; exact ⟨_, hc⟩
      · rw [hb, execute_case_add] at hc; exact ⟨_, hc⟩
      · rw [hb, execute_case_sub] at hc; exact ⟨_, hc⟩
      · rw [hb, execute_case_compare] at hc; exact ⟨_, hc⟩
    obtain ⟨f, hf⟩ := hmap
    obtain ⟨v, hv, _⟩ := Option.map_eq_some'.mp hf
    exact (load_double_some z c _ v hv).2
  · intro hb
    have hload : ∃ v, load_int z c (c.instruction_pointer + 1) = some v := by
      rcases hb with hb | hb | hb
      · rw [hb, execute_case_store] at hc
        obtain ⟨v, hv, _⟩ := Option.bind_eq_some.mp hc
        exact ⟨v, hv⟩
      · rw [hb, execute_case_jump] at hc
        obtain ⟨v, hv, _⟩ := Option.map_eq_some'.mp hc
        exact ⟨v, hv⟩
      · obtain ⟨f, hf⟩ := execute_case_bitwise z c _ hb
        rw [hf] at hc
        obtain ⟨v, hv, _⟩ := Option.map_eq_some'.mp hc
        exact ⟨v, hv⟩
    obtain ⟨v, hv⟩ := hload
    exact (load_int_some z c _ v hv).1.2
  · intro hb
    rcases hb with hb | hb
    · rw [hb, execute_case_syscall] at hc
      obtain ⟨v, hv, _⟩ := Option.map_eq_some'.mp hc
      exact (load_byte_some z c _ v hv).2
    · rw [execute_case_call z c _ hb] at hc
      obtain ⟨c3, _, hb3⟩ := Option.bind_eq_some.mp hc
      obtain ⟨v, hv, _⟩ := Option.map_eq_some'.mp hb3
      exact (load_byte_some z c3 _ v hv).2
  · intro hb
    rw [hb, execute_case_store] at hc
    obtain ⟨v, hv, ha⟩ := Option.bind_eq_some.mp hc
    obtain ⟨_, hval⟩ := load_int_some z c _ v hv
    rw [← hval]
    by_cases hin : v ≥ 0 ∧ v < z.MEMORY_SIZE
    · right
      rw [if_pos hin] at ha
      obtain ⟨c3, hs, _⟩ := Option.map_eq_some'.mp ha
      exact (store_double_some z c c3 v c.accumulator hs).2
    · left; exact hin
  · intro hb
    rcases hb with hb | hb
    · rw [hb, execute_case_push] at hc
      obtain ⟨c3, hp, _⟩ := Option.map_eq_some'.mp hc
      exact push_stack_some z c c3 _ hp
    · rw [execute_case_call z c _ hb] at hc
      obtain ⟨c3, hp, _⟩ := Option.bind_eq_some.mp hc
      exact push_stack_some z c c3 _ hp
  · intro hb
    rcases hb with hb | hb
    · rw [hb, execute_case_pop] at hc
      obtain ⟨p, hp, _⟩ := Option.map_eq_some'.mp hc
      exact pop_stack_some z c p hp
    · rw [execute_case_return z c _ hb] at hc
      obtain ⟨p, hp, _⟩ := Option.map_eq_some'.mp hc
      exact pop_stack_some z c p hp

/-- A loop iteration of `execute_program` in `cocomp2.c` returns a state exactly when every byte
it accesses is inside `memory`. -/
theorem dispatch_returns_iff (c : Cocomp) :
    (∃ c1 r, dispatch cocomp2_c c = some (c1, r)) ↔ accesses_inside cocomp2_c c :=
  ⟨fun ⟨c1, r, h⟩ => accesses_inside_of_returns cocomp2_c c c1 r h, dispatch_returns c⟩

end CocompVM
